import Mathlib

/-!
# Verification of the deepkit type-reflection compiler (`compiler.ts`)

A shallow embedding of `src/packages/type/src/reflection/compiler.ts`:
the instruction set, the `PackStruct` encoding (`pack` / `unpack`), the
mutable `CompilerProgram` builder (frames, variables, coroutines), the
type-to-bytecode walker `extractPackStructOfType` /
`extractPackStructOfTypeReference`, and the per-file hoisting loop of
`transformSourceFile`.

Modelling conventions:
* JavaScript arrays become Lean `List`s with the same orientation
  (`push` appends at the end, `pop` removes the last element,
  `unshift` prepends).
* Opcode buffers are `List Int`: TypeScript stores plain numbers and
  `unpack` of hostile payloads can produce negative values
  (`charCodeAt - 33`), so `Nat` would be unfaithful.
* JavaScript object identity (`===` used by `Array.prototype.indexOf`)
  is modelled by tagging every freshly created AST expression with a
  fresh numeric id drawn from a counter threaded through the
  transformer state; two entries are "identical" iff their tags agree.
* Code that throws becomes `Except String`; code that cannot throw is
  a total function.
* The host TypeScript services (type checker, module resolution) are
  external collaborators; their answers are carried on the AST nodes
  as a `Resolution` field (the oracle's verdict for that node).
-/

namespace DeepkitReflection

/-! ## Instruction set (`enum ReflectionOp`)

The TypeScript enum assigns consecutive values starting at 0.  Lean
keywords force a handful of renames (`classOp`, `inOp`, `returnOp`,
`privateOp`, `protectedOp`, `extendsOp`, `constructorOp`); the numeric
values are exactly those of the source enum.  Note the enum has 69
members, values 0–68, although the source comment above it says no
more than `packSize` (64) are allowed. -/

namespace ReflectionOp

def never : Int := 0
def any : Int := 1
def void : Int := 2
def string : Int := 3
def number : Int := 4
def numberBrand : Int := 5
def boolean : Int := 6
def bigint : Int := 7
def null : Int := 8
def undefined : Int := 9
def literal : Int := 10
def function : Int := 11
def method : Int := 12
def methodSignature : Int := 13
def parameter : Int := 14
def property : Int := 15
def propertySignature : Int := 16
def constructorOp : Int := 17
def classOp : Int := 18
def classReference : Int := 19
def optional : Int := 20
def readonly : Int := 21
def publicOp : Int := 22
def privateOp : Int := 23
def protectedOp : Int := 24
def abstractOp : Int := 25
def defaultValue : Int := 26
def description : Int := 27
def enum : Int := 28
def set : Int := 29
def map : Int := 30
def constEnum : Int := 31
def array : Int := 32
def union : Int := 33
def intersection : Int := 34
def indexSignature : Int := 35
def objectLiteral : Int := 36
def mappedType : Int := 37
def inOp : Int := 38
def frame : Int := 39
def returnOp : Int := 40
def date : Int := 41
def int8Array : Int := 42
def uint8ClampedArray : Int := 43
def uint8Array : Int := 44
def int16Array : Int := 45
def uint16Array : Int := 46
def int32Array : Int := 47
def uint32Array : Int := 48
def float32Array : Int := 49
def float64Array : Int := 50
def bigInt64Array : Int := 51
def arrayBuffer : Int := 52
def promise : Int := 53
def pointer : Int := 54
def arg : Int := 55
def template : Int := 56
def var : Int := 57
def loads : Int := 58
def query : Int := 59
def keyof : Int := 60
def infer : Int := 61
def condition : Int := 62
def jumpCondition : Int := 63
def jump : Int := 64
def call : Int := 65
def inline : Int := 66
def inlineCall : Int := 67
def extendsOp : Int := 68

end ReflectionOp

/-- `export const packSizeByte: number = 6;` -/
def packSizeByte : Nat := 6

/-- `export const packSize: number = 2 ** packSizeByte; //64` -/
def packSize : Int := 2 ^ packSizeByte

/-! ## Stack entries and payloads -/

/-- `export type StackEntry = Expression | (() => ClassType | Object) | string | number | boolean;`

An `Expression` (AST node, including the arrow-function thunks the
transformer fabricates) is identified by its object identity, modelled
as a numeric tag; see the module header. -/
inductive StackEntry where
  | expr (id : Nat)
  | str (s : String)
  | num (n : Int)
  | bool (b : Bool)
  | undefVal
deriving DecidableEq, Repr

/-- `export type Packed = string | (StackEntry | string)[];`

Since a plain string is already one of the `StackEntry` shapes, the
array alternative is a list of stack entries. -/
inductive Packed where
  | str (s : String)
  | arr (elems : List StackEntry)
deriving DecidableEq, Repr

/-- `export class PackStruct { ops: ReflectionOp[]; stack: StackEntry[] }` -/
structure PackStruct where
  ops : List Int
  stack : List StackEntry
deriving DecidableEq, Repr

/-- `String.fromCharCode(v + 33)` for one opcode value: ECMAScript
applies `ToUint16` (reduction mod 2^16) to the argument.  All values
reachable in the claims stay far below the surrogate range, where
`Char.ofNat` is exact. -/
def jsCharOfOp (v : Int) : Char := Char.ofNat ((v + 33).emod 65536).toNat

/-- `ops.map(v => String.fromCharCode(v + 33)).join('')` -/
def encodeOps (ops : List Int) : String := String.mk (ops.map jsCharOfOp)

/-- `unpackOps`: each character contributes `charCodeAt(i) - 33`. -/
def decodeOps (s : String) : List Int := s.data.map (fun c => (c.toNat : Int) - 33)

/-- `pack` (the `PackStruct` overload): encode the ops; if the stack is
non-empty return `[...stack, encodedOps]`, otherwise the string alone.
(The `ReflectionOp[]` overload of the source returns the encoded string
directly and is subsumed by the empty-stack case.) -/
def pack (p : PackStruct) : Packed :=
  if p.stack.length ≠ 0 then Packed.arr (p.stack ++ [StackEntry.str (encodeOps p.ops)])
  else Packed.str (encodeOps p.ops)

/-- `typeof x === 'string'` for the last element of an array payload
(`pack[pack.length - 1]`; an empty array yields `undefined`, which is
not a string). -/
def packedLastIsString (elems : List StackEntry) : Bool :=
  match elems.getLast? with
  | some (StackEntry.str _) => true
  | _ => false

/-- `unpack`: a string payload decodes directly; an array payload must
end in the encoded string (otherwise the empty structure is returned),
and the preceding elements form the stack. -/
def unpack (p : Packed) : PackStruct :=
  match p with
  | Packed.str s => ⟨decodeOps s, []⟩
  | Packed.arr elems =>
    match elems.getLast? with
    | some (StackEntry.str s) => ⟨decodeOps s, elems.dropLast⟩
    | _ => ⟨[], []⟩

/-! ### Round-trip lemmas -/

theorem jsCharOfOp_toNat (v : Int) (h0 : 0 ≤ v) (h1 : v < packSize) :
    ((jsCharOfOp v).toNat : Int) = v + 33 := by
  have hps : packSize = 64 := by decide
  rw [hps] at h1
  have hemod : (v + 33).emod 65536 = v + 33 :=
    Int.emod_eq_of_lt (by omega) (by omega)
  have hsmall : ((v + 33).emod 65536).toNat < 0xd800 := by
    rw [hemod]; omega
  have hv : (((v + 33).emod 65536).toNat).isValidChar := Or.inl hsmall
  unfold jsCharOfOp
  simp [Char.ofNat, dif_pos hv, Char.ofNatAux, Char.toNat, UInt32.toNat,
    BitVec.toNat_ofNatLt]
  omega

theorem decodeOps_encodeOps (ops : List Int)
    (h : ∀ v ∈ ops, 0 ≤ v ∧ v < packSize) :
    decodeOps (encodeOps ops) = ops := by
  unfold decodeOps encodeOps
  rw [show (String.mk (ops.map jsCharOfOp)).data = ops.map jsCharOfOp from rfl]
  rw [List.map_map]
  induction ops with
  | nil => rfl
  | cons a l ih =>
    have ha := h a (List.mem_cons_self a l)
    simp only [List.map_cons]
    rw [ih (fun v hv => h v (List.mem_cons_of_mem a hv))]
    simp only [Function.comp_apply, List.cons.injEq, and_true]
    have := jsCharOfOp_toNat a ha.1 ha.2
    omega

/-- C1 — the round-trip theorem.  `unpack (pack p) = p` for every pack
structure whose opcode values (including inline operands, which live in
the same `ops` buffer) lie in the packable range `[0, packSize)`. -/
theorem unpack_pack_roundtrip (p : PackStruct)
    (h : ∀ v ∈ p.ops, 0 ≤ v ∧ v < packSize) :
    unpack (pack p) = p := by
  obtain ⟨ops, stack⟩ := p
  unfold pack
  by_cases hs : stack.length ≠ 0
  · rw [if_pos hs]
    simp only [unpack]
    rw [List.getLast?_concat, List.dropLast_concat]
    show PackStruct.mk (decodeOps (encodeOps ops)) stack = PackStruct.mk ops stack
    rw [decodeOps_encodeOps ops h]
  · have hnil : stack = [] := by
      simpa using hs
    subst hnil
    rw [if_neg hs]
    show PackStruct.mk (decodeOps (encodeOps ops)) [] = PackStruct.mk ops []
    rw [decodeOps_encodeOps ops h]

/-- Witness for C1 at a concrete pack structure. -/
theorem unpack_pack_roundtrip_witness :
    unpack (pack ⟨[ReflectionOp.string, ReflectionOp.literal, 0],
      [StackEntry.str "a"]⟩) = ⟨[ReflectionOp.string, ReflectionOp.literal, 0],
      [StackEntry.str "a"]⟩ :=
  unpack_pack_roundtrip _ (by decide)

/-- C10 — `unpack` is total.  An array payload whose last element is
not a string yields the empty pack structure, and a one-element array
holding just the encoded string yields its decoded ops with an empty
stack. -/
theorem unpack_total (elems : List StackEntry) (s : String) :
    (packedLastIsString elems = false → unpack (Packed.arr elems) = ⟨[], []⟩) ∧
    unpack (Packed.arr [StackEntry.str s]) = ⟨decodeOps s, []⟩ := by
  constructor
  · intro hlast
    simp only [unpack]
    unfold packedLastIsString at hlast
    cases helem : elems.getLast? with
    | none => rfl
    | some entry =>
      cases entry with
      | str t => rw [helem] at hlast; simp at hlast
      | expr i => rfl
      | num n => rfl
      | bool b => rfl
      | undefVal => rfl
  · rfl

/-- Witness for C10 at a concrete malformed payload and a concrete
encoded string. -/
theorem unpack_total_witness :
    unpack (Packed.arr [StackEntry.num 5]) = ⟨[], []⟩ ∧
    unpack (Packed.arr [StackEntry.str "$"]) = ⟨decodeOps "$", []⟩ :=
  ⟨(unpack_total [StackEntry.num 5] "$").1 (by decide),
    (unpack_total [StackEntry.num 5] "$").2⟩

/-! ## Compiler program (`class CompilerProgram`)

Frames form a linked stack (`interface Frame`); `previous?` is absent
exactly on the root frame, which the constructor initialises as
`{ variables: [], opIndex: 0 }`. -/

/-- One entry of `Frame.variables`: `{ name: string, index: number }`. -/
structure Variable where
  name : String
  index : Nat
deriving DecidableEq, Repr

/-- `interface Frame { variables; opIndex; conditional?; previous? }`
(the `variables` field is called `varList` here because `variables` is
a reserved token in Lean). -/
inductive Frame where
  | base (vars : List Variable) (opIndex : Nat) (conditional : Bool)
  | child (vars : List Variable) (opIndex : Nat) (conditional : Bool)
      (previous : Frame)
deriving DecidableEq, Repr

def Frame.varList : Frame → List Variable
  | Frame.base vs _ _ => vs
  | Frame.child vs _ _ _ => vs

def Frame.opIndex : Frame → Nat
  | Frame.base _ i _ => i
  | Frame.child _ i _ _ => i

def Frame.conditional : Frame → Bool
  | Frame.base _ _ c => c
  | Frame.child _ _ c _ => c

def Frame.previous : Frame → Option Frame
  | Frame.base _ _ _ => none
  | Frame.child _ _ _ p => some p

/-- Replace the variable list of the top node of a frame, leaving the
tail of the chain untouched (models mutating `frame.variables`). -/
def Frame.withVariables : Frame → List Variable → Frame
  | Frame.base _ i c, vs => Frame.base vs i c
  | Frame.child _ i c p, vs => Frame.child vs i c p

/-- Models `frame.conditional = true` on the top node. -/
def Frame.setConditional : Frame → Frame
  | Frame.base vs i _ => Frame.base vs i true
  | Frame.child vs i _ p => Frame.child vs i true p

/-- The frame reached after `d` hops along `previous` pointers. -/
def frameAt : Frame → Nat → Option Frame
  | f, 0 => some f
  | Frame.base _ _ _, _ + 1 => none
  | Frame.child _ _ _ p, n + 1 => frameAt p n

/-- Rewrite the frame `d` hops down the chain with `g` (models mutating
a frame object that `findConditionalFrame` returned; frame objects are
only ever reachable through the chain). -/
def updateFrameAt : Frame → Nat → (Frame → Frame) → Frame
  | f, 0, g => g f
  | Frame.base vs i c, _ + 1, _ => Frame.base vs i c
  | Frame.child vs i c p, n + 1, g => Frame.child vs i c (updateFrameAt p n g)

/-- `function findVariable(frame, name, frameOffset = 0)`: look in the
current frame's variable list, else recurse into `previous` with the
offset bumped. -/
def findVariableFrom : Frame → String → Nat → Option (Nat × Nat)
  | Frame.base vars _ _, name, off =>
    match vars.find? (fun v => v.name == name) with
    | some v => some (off, v.index)
    | none => none
  | Frame.child vars _ _ p, name, off =>
    match vars.find? (fun v => v.name == name) with
    | some v => some (off, v.index)
    | none => findVariableFrom p name (off + 1)

/-- `function findConditionalFrame(frame)`, returning the matching
frame together with its depth in the chain (the depth stands for the
object identity of the returned frame). -/
def findConditionalFrameD : Frame → Option (Nat × Frame)
  | Frame.base vs i c =>
    if c then some (0, Frame.base vs i c) else none
  | Frame.child vs i c p =>
    if c then some (0, Frame.child vs i c p)
    else (findConditionalFrameD p).map (fun q => (q.1 + 1, q.2))

/-- The mutable state of `class CompilerProgram`.  `activeCoRoutines`
and `coRoutines` hold each coroutine's op buffer; JS `push`/`pop` work
on the end of the list. -/
structure CPState where
  ops : List Int
  stack : List StackEntry
  mainOffset : Nat
  stackPosition : Nat
  frame : Frame
  activeCoRoutines : List (List Int)
  coRoutines : List (List Int)
deriving DecidableEq, Repr

/-- A freshly constructed `CompilerProgram`. -/
def freshProgram : CPState :=
  ⟨[], [], 0, 0, Frame.base [] 0 false, [], []⟩

/-- `isEmpty(): boolean { return this.ops.length === 0 }` — the main
buffer only, even while a coroutine is active. -/
def CPState.isEmpty (s : CPState) : Bool := s.ops.isEmpty

/-- Mutate the last buffer of a list of buffers
(`activeCoRoutines[activeCoRoutines.length - 1]`). -/
def modifyLastBuf (g : List Int → List Int) : List (List Int) → List (List Int)
  | [] => []
  | [b] => [g b]
  | b :: rest => b :: modifyLastBuf g rest

/-- `pushOp(...ops)`: append to the top active coroutine if one is
open, otherwise to the main buffer. -/
def CPState.pushOp (s : CPState) (newOps : List Int) : CPState :=
  if s.activeCoRoutines.isEmpty then { s with ops := s.ops ++ newOps }
  else { s with activeCoRoutines := modifyLastBuf (fun b => b ++ newOps) s.activeCoRoutines }

/-- `array.splice(index, 0, ...ops)`; JS clamps an index past the end. -/
def spliceAt (buf : List Int) (idx : Nat) (ins : List Int) : List Int :=
  buf.take idx ++ ins ++ buf.drop idx

/-- `pushOpAtFrame(frame, ...ops)`: splice into the active buffer at
the frame's recorded `opIndex`. -/
def CPState.pushOpAtFrame (s : CPState) (f : Frame) (newOps : List Int) : CPState :=
  if s.activeCoRoutines.isEmpty then { s with ops := spliceAt s.ops f.opIndex newOps }
  else { s with activeCoRoutines := modifyLastBuf (fun b => spliceAt b f.opIndex newOps) s.activeCoRoutines }

/-- `pushStack(item)`: append to the shared stack, return the previous
`stackPosition` and bump it. -/
def CPState.pushStack (s : CPState) (item : StackEntry) : Nat × CPState :=
  (s.stackPosition, { s with stack := s.stack ++ [item], stackPosition := s.stackPosition + 1 })

/-- `findOrAddStackEntry(entry)`: linear scan by identity
(`Array.prototype.indexOf`, i.e. `===`), else push. -/
def CPState.findOrAddStackEntry (s : CPState) (entry : StackEntry) : Nat × CPState :=
  match s.stack.indexOf? entry with
  | some i => (i, s)
  | none => s.pushStack entry

/-- `increaseStackPosition()` (present in the source; unused by the
walker). -/
def CPState.increaseStackPosition (s : CPState) : Nat × CPState :=
  (s.stackPosition, { s with stackPosition := s.stackPosition + 1 })

/-- Length of the buffer currently receiving ops. -/
def CPState.activeBufLen (s : CPState) : Nat :=
  match s.activeCoRoutines.getLast? with
  | some b => b.length
  | none => s.ops.length

/-- `pushFrame(implicit = false)`: unless implicit, emit a `frame` op;
record the current active-buffer length as the new frame's `opIndex`;
chain a fresh frame on top. -/
def CPState.pushFrame (s : CPState) (implicit : Bool) : CPState :=
  let s1 := if implicit then s else s.pushOp [ReflectionOp.frame]
  { s1 with frame := Frame.child [] s1.activeBufLen false s1.frame }

/-- `popFrame()`: restore the parent frame if there is one; silently a
no-op on the root frame (`if (this.frame.previous) ...`). -/
def CPState.popFrame (s : CPState) : CPState :=
  match s.frame with
  | Frame.base _ _ _ => s
  | Frame.child _ _ _ p => { s with frame := p }

/-- `pushConditionalFrame()`: push a frame, then mark it conditional. -/
def CPState.pushConditionalFrame (s : CPState) : CPState :=
  let s1 := s.pushFrame false
  { s1 with frame := s1.frame.setConditional }

/-- `pushVariable(name, frame = this.frame)`: splice a `var` op at the
target frame's `opIndex`, then push `{ index: this.frame.variables.length,
name }` onto the *target* frame's variable list (note the recorded index
is read off the *current* frame) and return the target's new last
position.  The target frame is designated by its depth in the chain. -/
def CPState.pushVariable (s : CPState) (name : String) (d : Nat) : CPState × Nat :=
  match frameAt s.frame d with
  | none => (s, 0)
  | some target =>
    let s1 := s.pushOpAtFrame target [ReflectionOp.var]
    let storedIndex := s.frame.varList.length
    let s2 := { s1 with
      frame := updateFrameAt s1.frame d
        (fun fr => fr.withVariables (fr.varList ++ [⟨name, storedIndex⟩])) }
    (s2, target.varList.length)

/-- `pushTemplateParameter(name)`: emit `template, nameIndex` and bind
the name in the current frame. -/
def CPState.pushTemplateParameter (s : CPState) (name : String) : CPState :=
  let (idx, s1) := s.findOrAddStackEntry (StackEntry.str name)
  let s2 := s1.pushOp [ReflectionOp.template, (idx : Int)]
  { s2 with
    frame := s2.frame.withVariables
      (s2.frame.varList ++ [⟨name, s2.frame.varList.length⟩]) }

/-- `findVariable(name)` on the program's current frame. -/
def CPState.findVariable (s : CPState) (name : String) : Option (Nat × Nat) :=
  findVariableFrom s.frame name 0

/-- `findConditionalFrame()` on the program's current frame. -/
def CPState.findConditionalFrame (s : CPState) : Option (Nat × Frame) :=
  findConditionalFrameD s.frame

/-- `pushCoRoutine()`: open an implicit frame (no `frame` op — the
calling convention reserves one) and push a fresh op buffer. -/
def CPState.pushCoRoutine (s : CPState) : CPState :=
  let s1 := s.pushFrame true
  { s1 with activeCoRoutines := s1.activeCoRoutines ++ [[]] }

/-- `popCoRoutine()`: close the top coroutine (throwing when none is
open), pop its frame, initialise the main offset to 2 on first use
(reserving room for the `jump, mainOffset` prelude), terminate the
coroutine with `return`, record it, advance the main offset by its
length, and return the offset at which it will live. -/
def CPState.popCoRoutine (s : CPState) : Except String (Nat × CPState) :=
  match s.activeCoRoutines.getLast? with
  | none => Except.error "No active co routine found"
  | some co =>
    let s1 := { s with activeCoRoutines := s.activeCoRoutines.dropLast }
    let s2 := s1.popFrame
    let s3 := if s2.mainOffset = 0 then { s2 with mainOffset := 2 } else s2
    let startIndex := s3.mainOffset
    let co2 := co ++ [ReflectionOp.returnOp]
    let s4 :=
      { s3 with
        coRoutines := s3.coRoutines ++ [co2]
        mainOffset := s3.mainOffset + co2.length }
    Except.ok (startIndex, s4)

/-- `buildPackStruct()`: copy the main ops; `unshift` the completed
coroutines from the last to the first (so they end up in completion
order before the main program); if the main offset was ever advanced,
`unshift` the `jump, mainOffset` prelude. -/
def CPState.buildPackStruct (s : CPState) : PackStruct :=
  let ops1 := if s.coRoutines.isEmpty then s.ops
    else s.coRoutines.foldr (fun co acc => co ++ acc) s.ops
  let ops2 := if s.mainOffset ≠ 0 then
      ReflectionOp.jump :: (s.mainOffset : Int) :: ops1
    else ops1
  PackStruct.mk ops2 s.stack

/-! ### C5 — which invariant violations actually raise -/

/-- C5 — counterexample.  The claim says all three compiler-program
invariant violations abort with a diagnostic.  In fact only the
coroutine one does: popping a frame with no frame open is a silent
no-op (`popFrame` merely tests `this.frame.previous`), and `pack`
performs no ceiling check at all — opcode 68 (`extends`, beyond the
64-value `packSize`) is encoded without any error. -/
theorem invariant_violations_silent_counterexample :
    CPState.popFrame freshProgram = freshProgram ∧
    pack ⟨[ReflectionOp.extendsOp], []⟩ = Packed.str "e" := by
  constructor
  · rfl
  · rfl

/-- C5 — amended: of the three violations, only closing a coroutine
when none is open raises (`'No active co routine found'`); popping a
frame when no frame is open silently leaves the program unchanged; and
`pack` applies no overflow diagnostic for opcode values at or beyond
the 64-value ceiling. -/
theorem invariant_violations_amended (s : CPState)
    (hco : s.activeCoRoutines = [])
    (hfr : s.frame.previous = none) :
    s.popCoRoutine = Except.error "No active co routine found" ∧
    s.popFrame = s ∧
    pack ⟨[packSize], []⟩ = Packed.str "a" := by
  refine ⟨?_, ?_, ?_⟩
  · unfold CPState.popCoRoutine
    rw [hco]
    rfl
  · unfold CPState.popFrame
    cases hf : s.frame with
    | base vs i c => rfl
    | child vs i c p => rw [hf] at hfr; simp [Frame.previous] at hfr
  · rfl

/-- Witness for the amended C5 at the fresh program. -/
theorem invariant_violations_amended_witness :
    freshProgram.popCoRoutine = Except.error "No active co routine found" ∧
    freshProgram.popFrame = freshProgram ∧
    pack ⟨[packSize], []⟩ = Packed.str "a" :=
  invariant_violations_amended freshProgram rfl rfl

/-! ### C6 — layout produced by `buildPackStruct` -/

/-- The coupling `popCoRoutine` maintains between the main offset and
the completed coroutines: the offset is `0` while no coroutine has
completed, and `2 + Σ |coᵢ|` afterwards. -/
def MainOffsetInv (s : CPState) : Prop :=
  (s.coRoutines = [] → s.mainOffset = 0) ∧
  (s.coRoutines ≠ [] → s.mainOffset = 2 + s.coRoutines.flatten.length)

instance (s : CPState) : Decidable (MainOffsetInv s) := by
  unfold MainOffsetInv
  infer_instance

theorem mainOffsetInv_fresh : MainOffsetInv freshProgram := by
  constructor <;> intro h <;> simp_all [freshProgram]

theorem mainOffsetInv_pushOp (s : CPState) (ops : List Int)
    (h : MainOffsetInv s) : MainOffsetInv (s.pushOp ops) := by
  unfold CPState.pushOp
  split <;> exact h

theorem mainOffsetInv_pushFrame (s : CPState) (implicit : Bool)
    (h : MainOffsetInv s) : MainOffsetInv (s.pushFrame implicit) := by
  unfold CPState.pushFrame
  have h1 : MainOffsetInv (if implicit then s else s.pushOp [ReflectionOp.frame]) := by
    split
    · exact h
    · exact mainOffsetInv_pushOp s _ h
  exact h1

theorem mainOffsetInv_popFrame (s : CPState)
    (h : MainOffsetInv s) : MainOffsetInv s.popFrame := by
  unfold CPState.popFrame
  split <;> exact h

theorem mainOffsetInv_pushCoRoutine (s : CPState)
    (h : MainOffsetInv s) : MainOffsetInv s.pushCoRoutine := by
  unfold CPState.pushCoRoutine
  exact mainOffsetInv_pushFrame s true h

@[simp] theorem popFrame_ops (s : CPState) : s.popFrame.ops = s.ops := by
  unfold CPState.popFrame; split <;> rfl

@[simp] theorem popFrame_stack (s : CPState) : s.popFrame.stack = s.stack := by
  unfold CPState.popFrame; split <;> rfl

@[simp] theorem popFrame_mainOffset (s : CPState) :
    s.popFrame.mainOffset = s.mainOffset := by
  unfold CPState.popFrame; split <;> rfl

@[simp] theorem popFrame_stackPosition (s : CPState) :
    s.popFrame.stackPosition = s.stackPosition := by
  unfold CPState.popFrame; split <;> rfl

@[simp] theorem popFrame_activeCoRoutines (s : CPState) :
    s.popFrame.activeCoRoutines = s.activeCoRoutines := by
  unfold CPState.popFrame; split <;> rfl

@[simp] theorem popFrame_coRoutines (s : CPState) :
    s.popFrame.coRoutines = s.coRoutines := by
  unfold CPState.popFrame; split <;> rfl

/-- Characterisation of a successful `popCoRoutine`. -/
theorem popCoRoutine_eq (s : CPState) (co : List Int)
    (hlast : s.activeCoRoutines.getLast? = some co) :
    s.popCoRoutine = Except.ok
      ((if s.mainOffset = 0 then 2 else s.mainOffset),
       { ({ s with activeCoRoutines := s.activeCoRoutines.dropLast } : CPState).popFrame with
         mainOffset := (if s.mainOffset = 0 then 2 else s.mainOffset) + (co.length + 1)
         coRoutines := s.coRoutines ++ [co ++ [ReflectionOp.returnOp]] }) := by
  unfold CPState.popCoRoutine
  rw [hlast]
  by_cases hz : s.mainOffset = 0 <;>
    simp [hz, List.length_append]

theorem mainOffsetInv_popCoRoutine (s : CPState) (i : Nat) (s' : CPState)
    (h : MainOffsetInv s) (hpop : s.popCoRoutine = Except.ok (i, s')) :
    MainOffsetInv s' := by
  obtain ⟨h0, hne⟩ := h
  cases hlast : s.activeCoRoutines.getLast? with
  | none =>
    unfold CPState.popCoRoutine at hpop
    rw [hlast] at hpop
    cases hpop
  | some co =>
    rw [popCoRoutine_eq s co hlast] at hpop
    simp only [Except.ok.injEq, Prod.mk.injEq] at hpop
    obtain ⟨hi, hs'⟩ := hpop
    subst hs'
    constructor
    · intro hcontra
      simp at hcontra
    · intro _
      show (if s.mainOffset = 0 then 2 else s.mainOffset) + (co.length + 1) =
        2 + (s.coRoutines ++ [co ++ [ReflectionOp.returnOp]]).flatten.length
      by_cases hc : s.coRoutines = []
      · have hm0 : s.mainOffset = 0 := h0 hc
        rw [hc, hm0]
        simp
      · have hm : s.mainOffset = 2 + s.coRoutines.flatten.length := hne hc
        have hnz : s.mainOffset ≠ 0 := by omega
        rw [if_neg hnz, hm]
        simp [List.flatten_append]
        omega

/-- C6 — `buildPackStruct` layout.  Under the invariant maintained by
`popCoRoutine`: with at least one completed coroutine the output is
`jump, mainOffset` followed by the coroutines in completion order and
then the main buffer, and `mainOffset` is the index of the first value
after the last coroutine (2 prelude values plus the total coroutine
length); with no coroutine the output is exactly the main buffer. -/
theorem buildPackStruct_layout (s : CPState) (hinv : MainOffsetInv s) :
    (s.coRoutines ≠ [] →
      (s.buildPackStruct).ops =
        ReflectionOp.jump :: ((s.mainOffset : Int) :: (s.coRoutines.flatten ++ s.ops)) ∧
      s.mainOffset = 2 + s.coRoutines.flatten.length) ∧
    (s.coRoutines = [] → s.buildPackStruct = PackStruct.mk s.ops s.stack) := by
  obtain ⟨h0, hne⟩ := hinv
  constructor
  · intro hco
    have hoff : s.mainOffset = 2 + s.coRoutines.flatten.length := hne hco
    have hfold : s.coRoutines.foldr (fun co acc => co ++ acc) s.ops =
        s.coRoutines.flatten ++ s.ops := by
      induction s.coRoutines with
      | nil => simp [List.flatten]
      | cons b bs ih => simp [List.flatten, ih, List.append_assoc]
    constructor
    · unfold CPState.buildPackStruct
      have hisempty : s.coRoutines.isEmpty = false := by
        cases hc : s.coRoutines with
        | nil => exact absurd hc hco
        | cons a l => rfl
      rw [hisempty]
      simp only [Bool.false_eq_true, if_false, hfold]
      have hnz : s.mainOffset ≠ 0 := by omega
      rw [if_pos hnz]
    · exact hoff
  · intro hco
    have hoff : s.mainOffset = 0 := h0 hco
    unfold CPState.buildPackStruct
    rw [hco]
    simp [hoff]

/-- Witness for C6: the state reached by opening one coroutine,
pushing one op into it and closing it again (so the invariant holds by
construction), together with the degenerate fresh program for the
coroutine-less clause. -/
theorem buildPackStruct_layout_witness :
    ((⟨[], [], 4, 0, Frame.base [] 0 false, [],
        [[ReflectionOp.string, ReflectionOp.returnOp]]⟩ : CPState).coRoutines ≠ [] →
      ((⟨[], [], 4, 0, Frame.base [] 0 false, [],
        [[ReflectionOp.string, ReflectionOp.returnOp]]⟩ : CPState).buildPackStruct).ops =
        ReflectionOp.jump :: ((4 : Int) ::
          (([[ReflectionOp.string, ReflectionOp.returnOp]] : List (List Int)).flatten ++ [])) ∧
      (4 : Nat) = 2 + ([[ReflectionOp.string, ReflectionOp.returnOp]] : List (List Int)).flatten.length) ∧
    (((⟨[], [], 4, 0, Frame.base [] 0 false, [],
        [[ReflectionOp.string, ReflectionOp.returnOp]]⟩ : CPState).coRoutines = []) →
      (⟨[], [], 4, 0, Frame.base [] 0 false, [],
        [[ReflectionOp.string, ReflectionOp.returnOp]]⟩ : CPState).buildPackStruct =
        PackStruct.mk [] []) :=
  buildPackStruct_layout _ (by decide)

/-! ## The type AST seen by the walker

`extractPackStructOfType` dispatches on `node.kind`; the constructors
below correspond one-to-one to the `case` labels of its `switch` (with
`otherNode` standing for every kind that reaches the `default` branch).
External oracles are carried on the nodes:
* the reflection mode that `findReflectionConfig` would answer for a
  node (consulted for `PropertyDeclaration` and the function-like
  kinds) is a `mode` field;
* the result of `resolveDeclaration` (host type checker plus
  `resolveImportSpecifier`) for a type reference is a `Resolution`
  field;
* AST literal nodes are identified by a numeric id (`Array.indexOf`
  identity, cf. module header).

`InterfaceDeclaration` shares its `case` with `TypeLiteral`; the
heritage-clause merging it additionally performs is not modelled (no
claim depends on it), so interface bodies appear as `typeLiteralNode`
member lists. -/

/-- `reflectionModes = ['always', 'default', 'never']` -/
inductive RMode where
  | always
  | defaultMode
  | never
deriving DecidableEq, Repr

/-! `const enum MappedModifier` -/

namespace MappedModifier

def optional : Nat := 1
def removeOptional : Nat := 2
def readonly : Nat := 4
def removeReadonly : Nat := 8

end MappedModifier

/-! Modelled from the spec: the `TypeNumberBrand` enum lives in
`./type`, which is not part of the given sources; §4.6 names the
brands `integer, int8, int16, …`.  Only the first three are consulted
by `extractPackStructOfTypeReference`; their concrete values are taken
as the first three enum ordinals. -/

namespace TypeNumberBrand

def integer : Int := 0
def int8 : Int := 1
def int16 : Int := 2

end TypeNumberBrand

/-- The modifier keywords `hasModifier` is asked about on a member. -/
structure MemberMods where
  isPrivate : Bool
  isProtected : Bool
  isAbstract : Bool
  isReadonly : Bool
deriving DecidableEq, Repr

/-- No modifiers. -/
def noMods : MemberMods := ⟨false, false, false, false⟩

/-- A mapped type's `questionToken` / `readonlyToken`: either the
plain token (`?` resp. `readonly`) or the `-` remove form. -/
inductive MappedTok where
  | plain
  | minus
deriving DecidableEq, Repr

/-- Which function-like `SyntaxKind` a `funcNode` is. -/
inductive FuncKind where
  | methodDecl
  | constructorDecl
  | arrowFunction
  | functionExpression
  | functionTypeNode
  | functionDeclaration
deriving DecidableEq, Repr

/-- `EntityName = Identifier | QualifiedName`. -/
inductive EntityNameM where
  | ident (text : String)
  | qualified (left : EntityNameM) (right : String)
deriving DecidableEq, Repr

mutual

inductive TypeNode where
  | stringKeyword
  | numberKeyword
  | booleanKeyword
  | bigintKeyword
  | voidKeyword
  | nullKeyword
  | neverKeyword
  | anyKeyword
  | undefinedKeyword
  | trueKeyword
  | falseKeyword
  | parenthesized (inner : TypeNode)
  | classNode (typeParams : List String) (members : TypeNodeList)
  | intersectionNode (types : TypeNodeList)
  | mappedNode (typeParamName : String) (constraint : OptTypeNode)
      (questionTok : Option MappedTok) (readonlyTok : Option MappedTok)
      (ty : OptTypeNode)
  | typeLiteralNode (members : TypeNodeList)
  | typeReferenceNode (typeName : EntityNameM) (tail : RefTail)
  | arrayNode (elementType : TypeNode)
  | propertySignatureNode (name : Option String) (ty : OptTypeNode)
      (question : Bool) (readonlyMod : Bool) (descr : Option String)
  | propertyDeclarationNode (mode : RMode) (name : Option String)
      (ty : OptTypeNode) (question : Bool) (mods : MemberMods)
      (hasInitializer : Bool) (descr : Option String)
  | conditionalNode (checkType extendsType trueType falseType : TypeNode)
  | inferNode (name : String)
  | funcNode (kind : FuncKind) (mode : RMode) (name : Option String)
      (params : ParamList) (retType : OptTypeNode) (mods : MemberMods)
  | literalNode (isNull : Bool) (litId : Nat)
  | unionNode (types : TypeNodeList)
  | indexSignatureNode (paramType : OptTypeNode) (ty : TypeNode)
  | typeOperatorNode (isKeyof : Bool) (ty : TypeNode)
  | indexedAccessNode (objectType indexType : TypeNode)
  | otherNode

/-- A list of sibling type nodes.  A bespoke list type (rather than
`List TypeNode`) keeps the whole AST one mutual inductive family so
that the walker is structurally recursive and therefore computable by
the kernel. -/
inductive TypeNodeList where
  | nil
  | cons (head : TypeNode) (tail : TypeNodeList)

/-- An optional child type node (`narrowed.type` and friends). -/
inductive OptTypeNode where
  | noneT
  | someT (t : TypeNode)

/-- `type.typeArguments`: absent, or a present argument list. -/
inductive TypeArgsM where
  | noArgs
  | args (l : TypeNodeList)

/-- The non-name data of a type reference (its type arguments and the
resolution oracle's verdict), grouped so the reference-resolution part
of the walker can recurse structurally on this one subterm. -/
inductive RefTail where
  | mk (typeArgs : TypeArgsM) (res : Resolution)

/-- One entry of `narrowed.parameters`; `name = none` models a
non-identifier binding pattern (skipped by the walker). -/
inductive ParamNode where
  | mk (name : Option String) (ty : OptTypeNode) (question : Bool)
      (isPublic : Bool) (isPrivate : Bool) (isProtected : Bool)

inductive ParamList where
  | nil
  | cons (head : ParamNode) (tail : ParamList)

/-- The oracle verdict of `resolveDeclaration` for a type reference,
dispatched on by `extractPackStructOfTypeReference`:
* `unresolved` — no declaration found;
* `aliasOrInterfaceDecl declId imported` — a type alias or interface
  declaration (identified by `declId`, an index into the current
  file's declarations for local ones), reached through an import
  specifier iff `imported`;
* `typeLiteralDecl` — a type-literal declaration;
* `mappedDecl` / `otherDecl` — the resolved declaration node itself,
  which the walker recurses into;
* `enumDecl` / `classDeclR` — enum resp. class declarations. -/
inductive Resolution where
  | unresolved
  | aliasOrInterfaceDecl (declId : Nat) (imported : Bool)
  | typeLiteralDecl (declId : Nat)
  | mappedDecl (decl : TypeNode)
  | enumDecl
  | classDeclR
  | otherDecl (decl : TypeNode)

end

/-- Convert an ordinary list of nodes (used when writing down concrete
inputs) into the bespoke list type. -/
def TypeNodeList.ofList : List TypeNode → TypeNodeList
  | [] => TypeNodeList.nil
  | t :: rest => TypeNodeList.cons t (TypeNodeList.ofList rest)

/-- `typeArguments.length` for the `inlineCall` arity operand. -/
def TypeNodeList.length : TypeNodeList → Nat
  | TypeNodeList.nil => 0
  | TypeNodeList.cons _ rest => rest.length + 1

/-- `getNameAsString(member.name)` for the member-deduplication scans
(`''` on a nameless member is falsy and skips deduplication, modelled
as `none`). -/
def memberNameOf : TypeNode → Option String
  | TypeNode.propertySignatureNode name _ _ _ _ => name
  | TypeNode.propertyDeclarationNode _ name _ _ _ _ _ => name
  | TypeNode.funcNode kind _ name _ _ _ =>
    match kind with
    | FuncKind.constructorDecl => none
    | _ => name
  | _ => none

/-- `protected knownClasses: { [name: string]: ReflectionOp }`. -/
def knownClasses : String → Option Int
  | "Int8Array" => some ReflectionOp.int8Array
  | "Uint8Array" => some ReflectionOp.uint8Array
  | "Uint8ClampedArray" => some ReflectionOp.uint8ClampedArray
  | "Int16Array" => some ReflectionOp.int16Array
  | "Uint16Array" => some ReflectionOp.uint16Array
  | "Int32Array" => some ReflectionOp.int32Array
  | "Uint32Array" => some ReflectionOp.uint32Array
  | "Float32Array" => some ReflectionOp.float32Array
  | "Float64Array" => some ReflectionOp.float64Array
  | "ArrayBuffer" => some ReflectionOp.arrayBuffer
  | "BigInt64Array" => some ReflectionOp.bigInt64Array
  | "Date" => some ReflectionOp.date
  | "String" => some ReflectionOp.string
  | "Number" => some ReflectionOp.number
  | "BigInt" => some ReflectionOp.bigint
  | "Boolean" => some ReflectionOp.boolean
  | _ => none

/-- The `ReflectionTransformer` state the walker threads: the two
hoist queues (`Map` keyed by declaration identity, carrying the
reference `EntityName` last stored for it) and the fresh-id counter
standing for `NodeFactory` object creation. -/
structure TrState where
  compileDeclarations : List (Nat × EntityNameM)
  embedDeclarations : List (Nat × EntityNameM)
  nextExprId : Nat
deriving DecidableEq, Repr

/-- The transformer state at construction time. -/
def freshTrState : TrState := ⟨[], [], 0⟩

/-- A freshly created AST expression gets a new identity tag. -/
def freshExpr (tr : TrState) : Nat × TrState :=
  (tr.nextExprId, { tr with nextExprId := tr.nextExprId + 1 })

/-- `Map.prototype.set`: overwrite the value under an existing key,
else append the pair. -/
def mapSet (m : List (Nat × EntityNameM)) (k : Nat) (v : EntityNameM) :
    List (Nat × EntityNameM) :=
  if m.any (fun q => q.1 == k) then
    m.map (fun q => if q.1 == k then (k, v) else q)
  else m ++ [(k, v)]

/-- `Map.prototype.get`. -/
def mapGet (m : List (Nat × EntityNameM)) (k : Nat) : Option EntityNameM :=
  (m.find? (fun q => q.1 == k)).map (fun q => q.2)

/-- `Map.prototype.delete`. -/
def mapDelete (m : List (Nat × EntityNameM)) (k : Nat) :
    List (Nat × EntityNameM) :=
  m.filter (fun q => q.1 != k)

/-- `joinQualifiedName` of `getDeclarationVariableName`. -/
def joinQualifiedName : EntityNameM → String
  | EntityNameM.ident t => t
  | EntityNameM.qualified l r => joinQualifiedName l ++ "_" ++ r

/-- The hoisted-binding name `getDeclarationVariableName` mangles from
the reference's entity name (as a string; for a plain identifier the
source wraps it into a fresh `Identifier` node with this text). -/
def getDeclarationVariableName (n : EntityNameM) : String :=
  "__Ω" ++ joinQualifiedName n

/-- The stack entry `pushStack(this.getDeclarationVariableName(...))`
receives: a fresh `Identifier` expression for a plain identifier, but
the raw mangled *string* for a qualified name (the source's
`getDeclarationVariableName` returns `string` on that path). -/
def declVarStackEntry (tr : TrState) (n : EntityNameM) : StackEntry × TrState :=
  match n with
  | EntityNameM.ident _ =>
    let (eid, tr') := freshExpr tr
    (StackEntry.expr eid, tr')
  | EntityNameM.qualified _ _ =>
    (StackEntry.str (getDeclarationVariableName n), tr)

/-! ## The walker (`extractPackStructOfType` and
`extractPackStructOfTypeReference`)

Each case is a direct transcription of the corresponding `case` of the
source `switch` (or else-if branch of the reference resolver).  The
purely state-transforming tails of the longer cases are factored into
named helper functions directly above the walker (they contain no
recursion; the recursive structure of the source is entirely in the
walker itself).  Preserved source peculiarities:
* the `IntersectionType` case pushes a frame (when the program is
  non-empty) but never pops it — unlike `UnionType`;
* the function-like case likewise pushes without popping;
* inside the parameter loop the `readonly` check is performed against
  the *function* node (`hasModifier(narrowed, ...)`), not the
  parameter;
* `pushVariable` records the *current* frame's variable count as the
  index even when binding into an outer (conditional) frame. -/

/-- Outcome of the else-if prelude of
`extractPackStructOfTypeReference`, tested in source order: known
class, `Promise`, the numeric brands, a bound variable, and only then
the declaration oracle. -/
inductive RefPrelude where
  | knownOp (op : Int)
  | promiseRef
  | brand (value : Int)
  | loadsHit (frameOffset : Nat) (stackIndex : Nat)
  | fallthrough
deriving DecidableEq, Repr

/-- The else-if prelude of `extractPackStructOfTypeReference` (all
branches before `resolveDeclaration` is consulted). -/
def classifyReference (typeName : EntityNameM) (p : CPState) : RefPrelude :=
  match typeName, knownClasses (joinQualifiedName typeName) with
  | EntityNameM.ident _, some op => RefPrelude.knownOp op
  | _, _ =>
    if typeName = EntityNameM.ident "Promise" then RefPrelude.promiseRef
    else if typeName = EntityNameM.ident "integer" then
      RefPrelude.brand TypeNumberBrand.integer
    else if typeName = EntityNameM.ident "int8" then
      RefPrelude.brand TypeNumberBrand.int8
    else if typeName = EntityNameM.ident "int16" then
      RefPrelude.brand TypeNumberBrand.int16
    else
      match typeName with
      | EntityNameM.ident t =>
        (match p.findVariable t with
        | some (frameOffset, stackIndex) => RefPrelude.loadsHit frameOffset stackIndex
        | none => RefPrelude.fallthrough)
      | EntityNameM.qualified _ _ => RefPrelude.fallthrough

/-- Alias/interface branch prelude: push the hoisted-binding name onto
the stack and enqueue the declaration (embed queue when it came
through an import specifier, else the compile-local queue). -/
def aliasReferencePrelude (typeName : EntityNameM) (declId : Nat) (imported : Bool)
    (p : CPState) (tr : TrState) : Nat × CPState × TrState :=
  let (entry, tr) := declVarStackEntry tr typeName
  let (index, p) := p.pushStack entry
  let tr :=
    if imported then
      { tr with embedDeclarations := mapSet tr.embedDeclarations declId typeName }
    else
      { tr with compileDeclarations := mapSet tr.compileDeclarations declId typeName }
  (index, p, tr)

/-- Enum branch: a fresh arrow thunk, `enum, stackIdx`. -/
def enumReferenceEmit (p : CPState) (tr : TrState) : CPState × TrState :=
  let (eid, tr) := freshExpr tr
  let (idx, p) := p.findOrAddStackEntry (StackEntry.expr eid)
  (p.pushOp [ReflectionOp.enum, (idx : Int)], tr)

/-- Class branch tail (after any type arguments): a fresh arrow thunk
pushed on the stack, then `classReference` and its operand (the source
pushes those two with separate `pushOp` calls). -/
def classReferenceEmit (p : CPState) (tr : TrState) : CPState × TrState :=
  let (eid, tr) := freshExpr tr
  let (index, p) := p.pushStack (StackEntry.expr eid)
  let p := p.pushOp [ReflectionOp.classReference]
  (p.pushOp [(index : Int)], tr)

/-- `getPropertyName` (from `./reflection-ast`, not in the given
sources — modelled from the spec: property names are rendered as
strings; an absent name yields `undefined`). -/
def propName : Option String → StackEntry
  | some n => StackEntry.str n
  | none => StackEntry.undefVal

/-- The `PropertySignature` case after its type was extracted. -/
def propertySignatureTail (name : Option String) (question : Bool)
    (readonlyMod : Bool) (descr : Option String) (p : CPState) : CPState :=
  let (idx, p) := p.findOrAddStackEntry (propName name)
  let p := p.pushOp [ReflectionOp.propertySignature, (idx : Int)]
  let p := if question then p.pushOp [ReflectionOp.optional] else p
  let p := if readonlyMod then p.pushOp [ReflectionOp.readonly] else p
  match descr with
  | some d =>
    let (di, p) := p.findOrAddStackEntry (StackEntry.str d)
    p.pushOp [ReflectionOp.description, (di : Int)]
  | none => p

/-- The `PropertyDeclaration` case after its type was extracted: the
`property` op, the modifier train, a `defaultValue` thunk for an
initializer, and the doc-comment description. -/
def propertyDeclarationTail (name : Option String) (question : Bool)
    (mods : MemberMods) (hasInitializer : Bool) (descr : Option String)
    (p : CPState) (tr : TrState) : CPState × TrState :=
  let (idx, p) := p.findOrAddStackEntry (propName name)
  let p := p.pushOp [ReflectionOp.property, (idx : Int)]
  let p := if question then p.pushOp [ReflectionOp.optional] else p
  let p := if mods.isReadonly then p.pushOp [ReflectionOp.readonly] else p
  let p := if mods.isPrivate then p.pushOp [ReflectionOp.privateOp] else p
  let p := if mods.isProtected then p.pushOp [ReflectionOp.protectedOp] else p
  let p := if mods.isAbstract then p.pushOp [ReflectionOp.abstractOp] else p
  let (p, tr) :=
    if hasInitializer then
      let (eid, tr) := freshExpr tr
      let (di, p) := p.findOrAddStackEntry (StackEntry.expr eid)
      (p.pushOp [ReflectionOp.defaultValue, (di : Int)], tr)
    else (p, tr)
  match descr with
  | some d =>
    let (di, p) := p.findOrAddStackEntry (StackEntry.str d)
    (p.pushOp [ReflectionOp.description, (di : Int)], tr)
  | none => (p, tr)

/-- The function-like case after parameters and return type: the
`method`/`function` op with the name's stack index (`'constructor'`
for constructors), then method modifiers. -/
def funcNodeTail (kind : FuncKind) (name : Option String) (mods : MemberMods)
    (p : CPState) : CPState :=
  let nameEntry := match kind with
    | FuncKind.constructorDecl => StackEntry.str "constructor"
    | _ => propName name
  let (idx, p) := p.findOrAddStackEntry nameEntry
  let opKind := if kind = FuncKind.methodDecl ∨ kind = FuncKind.constructorDecl
    then ReflectionOp.method else ReflectionOp.function
  let p := p.pushOp [opKind, (idx : Int)]
  if kind = FuncKind.methodDecl then
    let p := if mods.isPrivate then p.pushOp [ReflectionOp.privateOp] else p
    let p := if mods.isProtected then p.pushOp [ReflectionOp.protectedOp] else p
    if mods.isAbstract then p.pushOp [ReflectionOp.abstractOp] else p
  else p

/-- One parameter's tail after its type was extracted: `parameter,
nameIdx` and the modifier train.  `fnReadonly` is the *function's*
readonly modifier — the source's loop checks `narrowed`, not the
parameter. -/
def paramTail (n : String) (question isPublic isPrivate isProtected fnReadonly : Bool)
    (p : CPState) : CPState :=
  let (idx, p) := p.findOrAddStackEntry (StackEntry.str n)
  let p := p.pushOp [ReflectionOp.parameter, (idx : Int)]
  let p := if question then p.pushOp [ReflectionOp.optional] else p
  let p := if isPublic then p.pushOp [ReflectionOp.publicOp] else p
  let p := if isPrivate then p.pushOp [ReflectionOp.privateOp] else p
  let p := if isProtected then p.pushOp [ReflectionOp.protectedOp] else p
  if fnReadonly then p.pushOp [ReflectionOp.readonly] else p

/-- The mapped-type modifier bitset from the `?` and `readonly`
tokens. -/
def mappedModifierBits (questionTok readonlyTok : Option MappedTok) : Nat :=
  (match questionTok with
    | some MappedTok.plain => MappedModifier.optional
    | some MappedTok.minus => MappedModifier.removeOptional
    | none => 0) +
  (match readonlyTok with
    | some MappedTok.plain => MappedModifier.readonly
    | some MappedTok.minus => MappedModifier.removeReadonly
    | none => 0)

/-- The `InferType` case (it contains no recursion). -/
def inferNodeEmitRetry (name : String) (p : CPState) (tr : TrState) :
    Except String (CPState × TrState) :=
  match p.findVariable name with
  | some (frameOffset, stackIndex) =>
    Except.ok (p.pushOp [ReflectionOp.infer, (frameOffset : Int), (stackIndex : Int)], tr)
  | none => Except.error "Could not find inserted infer variable"

def inferNodeEmitInFrame (name : String) (d : Nat) (p : CPState) (tr : TrState) :
    Except String (CPState × TrState) :=
  match p.findVariable name with
  | some (frameOffset, stackIndex) =>
    Except.ok (p.pushOp [ReflectionOp.infer, (frameOffset : Int), (stackIndex : Int)], tr)
  | none => inferNodeEmitRetry name (p.pushVariable name d).1 tr

def inferNodeEmit (name : String) (p : CPState) (tr : TrState) :
    Except String (CPState × TrState) :=
  match p.findConditionalFrame with
  | some (d, _) => inferNodeEmitInFrame name d p tr
  | none => Except.ok (p.pushOp [ReflectionOp.never], tr)

mutual

def extractPackStructOfType (node : TypeNode) (p : CPState) (tr : TrState) :
    Except String (CPState × TrState) :=
  match node with
  | TypeNode.parenthesized inner => extractPackStructOfType inner p tr
  | TypeNode.stringKeyword => Except.ok (p.pushOp [ReflectionOp.string], tr)
  | TypeNode.numberKeyword => Except.ok (p.pushOp [ReflectionOp.number], tr)
  | TypeNode.booleanKeyword => Except.ok (p.pushOp [ReflectionOp.boolean], tr)
  | TypeNode.bigintKeyword => Except.ok (p.pushOp [ReflectionOp.bigint], tr)
  | TypeNode.voidKeyword => Except.ok (p.pushOp [ReflectionOp.void], tr)
  | TypeNode.nullKeyword => Except.ok (p.pushOp [ReflectionOp.null], tr)
  | TypeNode.neverKeyword => Except.ok (p.pushOp [ReflectionOp.never], tr)
  | TypeNode.anyKeyword => Except.ok (p.pushOp [ReflectionOp.any], tr)
  | TypeNode.undefinedKeyword => Except.ok (p.pushOp [ReflectionOp.undefined], tr)
  | TypeNode.trueKeyword =>
    let (eid, tr) := freshExpr tr
    let (idx, p) := p.pushStack (StackEntry.expr eid)
    Except.ok (p.pushOp [ReflectionOp.literal, (idx : Int)], tr)
  | TypeNode.falseKeyword =>
    let (eid, tr) := freshExpr tr
    let (idx, p) := p.pushStack (StackEntry.expr eid)
    Except.ok (p.pushOp [ReflectionOp.literal, (idx : Int)], tr)
  | TypeNode.classNode typeParams members => do
    let empty := p.isEmpty
    let p := if !empty then p.pushFrame false else p
    let p := typeParams.foldl (fun q name => q.pushTemplateParameter name) p
    let (p, tr) ← extractMembersDedup [] members p tr
    let p := p.pushOp [ReflectionOp.classOp]
    let p := if !empty then p.popFrame else p
    Except.ok (p, tr)
  | TypeNode.intersectionNode types => do
    let empty := p.isEmpty
    let p := if !empty then p.pushFrame false else p
    let (p, tr) ← extractTypeList types p tr
    Except.ok (p.pushOp [ReflectionOp.intersection], tr)
  | TypeNode.mappedNode typeParamName constraint questionTok readonlyTok ty => do
    let p := p.pushFrame false
    let (p, _) := p.pushVariable typeParamName 0
    let (p, tr) ← match constraint with
      | OptTypeNode.someT c => extractPackStructOfType c p tr
      | OptTypeNode.noneT => Except.ok (p.pushOp [ReflectionOp.never], tr)
    let p := p.pushCoRoutine
    let modifier := mappedModifierBits questionTok readonlyTok
    let (p, tr) ← match ty with
      | OptTypeNode.someT t => extractPackStructOfType t p tr
      | OptTypeNode.noneT => Except.ok (p.pushOp [ReflectionOp.never], tr)
    match p.popCoRoutine with
    | Except.error e => Except.error e
    | Except.ok (coRoutineIndex, p) =>
      let p := p.pushOp [ReflectionOp.mappedType, (coRoutineIndex : Int), (modifier : Int)]
      Except.ok (p.popFrame, tr)
  | TypeNode.typeLiteralNode members => do
    let p := p.pushFrame false
    let (p, tr) ← extractMembersDedup [] members p tr
    let p := p.pushOp [ReflectionOp.objectLiteral]
    Except.ok (p.popFrame, tr)
  | TypeNode.typeReferenceNode typeName tail =>
    extractTypeRefCase (classifyReference typeName p) typeName tail p tr
  | TypeNode.arrayNode elementType => do
    let (p, tr) ← extractPackStructOfType elementType p tr
    Except.ok (p.pushOp [ReflectionOp.array], tr)
  | TypeNode.propertySignatureNode name ty question readonlyMod descr =>
    (match ty with
    | OptTypeNode.noneT => Except.ok (p, tr)
    | OptTypeNode.someT t => do
      let (p, tr) ← extractPackStructOfType t p tr
      Except.ok (propertySignatureTail name question readonlyMod descr p, tr))
  | TypeNode.propertyDeclarationNode mode name ty question mods hasInitializer descr =>
    (match ty with
    | OptTypeNode.noneT => Except.ok (p, tr)
    | OptTypeNode.someT t =>
      if mode = RMode.never then Except.ok (p, tr)
      else do
        let (p, tr) ← extractPackStructOfType t p tr
        Except.ok (propertyDeclarationTail name question mods hasInitializer descr p tr))
  | TypeNode.conditionalNode checkType extendsType trueType falseType => do
    let p := p.pushConditionalFrame
    let (p, tr) ← extractPackStructOfType checkType p tr
    let (p, tr) ← extractPackStructOfType extendsType p tr
    let p := p.pushOp [ReflectionOp.extendsOp]
    let (p, tr) ← extractPackStructOfType trueType p tr
    let (p, tr) ← extractPackStructOfType falseType p tr
    let p := p.pushOp [ReflectionOp.condition]
    Except.ok (p.popFrame, tr)
  | TypeNode.inferNode name => inferNodeEmit name p tr
  | TypeNode.funcNode kind mode name params retType mods =>
    if mode = RMode.never then Except.ok (p, tr)
    else do
      let empty := p.isEmpty
      let p := if !empty then p.pushFrame false else p
      let (p, tr) ← extractParams mods params p tr
      let (p, tr) ← match retType with
        | OptTypeNode.someT t => extractPackStructOfType t p tr
        | OptTypeNode.noneT => Except.ok (p.pushOp [ReflectionOp.any], tr)
      Except.ok (funcNodeTail kind name mods p, tr)
  | TypeNode.literalNode isNull litId =>
    if isNull then Except.ok (p.pushOp [ReflectionOp.null], tr)
    else
      let (idx, p) := p.findOrAddStackEntry (StackEntry.expr litId)
      Except.ok (p.pushOp [ReflectionOp.literal, (idx : Int)], tr)
  | TypeNode.unionNode types =>
    (match types with
    | TypeNodeList.nil => Except.ok (p, tr)
    | TypeNodeList.cons t TypeNodeList.nil => extractPackStructOfType t p tr
    | TypeNodeList.cons t1 (TypeNodeList.cons t2 rest) => do
      let empty := p.isEmpty
      let p := if !empty then p.pushFrame false else p
      let (p, tr) ← extractTypeList (TypeNodeList.cons t1 (TypeNodeList.cons t2 rest)) p tr
      let p := p.pushOp [ReflectionOp.union]
      let p := if !empty then p.popFrame else p
      Except.ok (p, tr))
  | TypeNode.indexSignatureNode paramType ty => do
    let (p, tr) ← match paramType with
      | OptTypeNode.someT t => extractPackStructOfType t p tr
      | OptTypeNode.noneT => Except.ok (p.pushOp [ReflectionOp.any], tr)
    let (p, tr) ← extractPackStructOfType ty p tr
    Except.ok (p.pushOp [ReflectionOp.indexSignature], tr)
  | TypeNode.typeOperatorNode isKeyof ty =>
    if isKeyof then do
      let (p, tr) ← extractPackStructOfType ty p tr
      Except.ok (p.pushOp [ReflectionOp.keyof], tr)
    else Except.ok (p, tr)
  | TypeNode.indexedAccessNode objectType indexType => do
    let (p, tr) ← extractPackStructOfType objectType p tr
    let (p, tr) ← extractPackStructOfType indexType p tr
    Except.ok (p.pushOp [ReflectionOp.query], tr)
  | TypeNode.otherNode => Except.ok (p.pushOp [ReflectionOp.any], tr)

/-- The body of `extractPackStructOfTypeReference` past its prelude:
the `TypeReference` case of the walker delegates here with the
prelude's verdict and the reference's argument/resolution data. -/
def extractTypeRefCase (pre : RefPrelude) (typeName : EntityNameM) (tail : RefTail)
    (p : CPState) (tr : TrState) : Except String (CPState × TrState) :=
  match tail with
  | RefTail.mk typeArgs res =>
    match pre with
    | RefPrelude.knownOp op => Except.ok (p.pushOp [op], tr)
    | RefPrelude.promiseRef => do
      let (p, tr) ← match typeArgs with
        | TypeArgsM.args (TypeNodeList.cons t _) => extractPackStructOfType t p tr
        | _ => Except.ok (p.pushOp [ReflectionOp.any], tr)
      Except.ok (p.pushOp [ReflectionOp.promise], tr)
    | RefPrelude.brand value =>
      Except.ok (p.pushOp [ReflectionOp.numberBrand, value], tr)
    | RefPrelude.loadsHit frameOffset stackIndex =>
      Except.ok (p.pushOp [ReflectionOp.loads, (frameOffset : Int), (stackIndex : Int)], tr)
    | RefPrelude.fallthrough =>
      match res with
      | Resolution.unresolved =>
        Except.ok (p.pushOp [ReflectionOp.any], tr)
      | Resolution.aliasOrInterfaceDecl declId imported =>
        let (index, p, tr) := aliasReferencePrelude typeName declId imported p tr
        (match typeArgs with
        | TypeArgsM.args args => do
          let (p, tr) ← extractTypeList args p tr
          Except.ok (p.pushOp [ReflectionOp.inlineCall, (index : Int), (args.length : Int)], tr)
        | TypeArgsM.noArgs => Except.ok (p.pushOp [ReflectionOp.inline, (index : Int)], tr))
      | Resolution.typeLiteralDecl declId =>
        Except.ok (p, { tr with embedDeclarations := mapSet tr.embedDeclarations declId typeName })
      | Resolution.mappedDecl decl => extractPackStructOfType decl p tr
      | Resolution.enumDecl => Except.ok (enumReferenceEmit p tr)
      | Resolution.classDeclR => do
        let (p, tr) ← match typeArgs with
          | TypeArgsM.args args => extractTypeList args p tr
          | TypeArgsM.noArgs => Except.ok (p, tr)
        Except.ok (classReferenceEmit p tr)
      | Resolution.otherDecl decl => extractPackStructOfType decl p tr

/-- Walk a list of sibling type nodes in order. -/
def extractTypeList (nodes : TypeNodeList) (p : CPState) (tr : TrState) :
    Except String (CPState × TrState) :=
  match nodes with
  | TypeNodeList.nil => Except.ok (p, tr)
  | TypeNodeList.cons t rest => do
    let (p, tr) ← extractPackStructOfType t p tr
    extractTypeList rest p tr

/-- The member loops of the class and interface/type-literal cases:
deduplicate by rendered name (first declaration wins; nameless members
are never deduplicated), extracting each kept member. -/
def extractMembersDedup (seen : List String) (members : TypeNodeList)
    (p : CPState) (tr : TrState) : Except String (CPState × TrState) :=
  match members with
  | TypeNodeList.nil => Except.ok (p, tr)
  | TypeNodeList.cons m rest =>
    match memberNameOf m with
    | some n =>
      if seen.contains n then extractMembersDedup seen rest p tr
      else do
        let (p, tr) ← extractPackStructOfType m p tr
        extractMembersDedup (seen ++ [n]) rest p tr
    | none => do
      let (p, tr) ← extractPackStructOfType m p tr
      extractMembersDedup seen rest p tr

/-- The parameter loop of the function-like case (parameters with
non-identifier binding patterns are skipped). -/
def extractParams (fnMods : MemberMods) (params : ParamList)
    (p : CPState) (tr : TrState) : Except String (CPState × TrState) :=
  match params with
  | ParamList.nil => Except.ok (p, tr)
  | ParamList.cons (ParamNode.mk name ty question isPublic isPrivate isProtected) rest =>
    match name with
    | none => extractParams fnMods rest p tr
    | some n => do
      let (p, tr) ← match ty with
        | OptTypeNode.someT t => extractPackStructOfType t p tr
        | OptTypeNode.noneT => Except.ok (p.pushOp [ReflectionOp.any], tr)
      extractParams fnMods rest (paramTail n question isPublic isPrivate isProtected fnMods.isReadonly p) tr

end

/-- `extractPackStructOfTypeReference(type, program)` — the source
method holding the type-reference logic; the walker's `TypeReference`
case is its sole caller, so it is definitionally the walker applied to
a `typeReferenceNode` (whose case above is the direct transcription of
the method body). -/
def extractPackStructOfTypeReference (typeName : EntityNameM)
    (typeArgs : TypeArgsM) (res : Resolution)
    (p : CPState) (tr : TrState) : Except String (CPState × TrState) :=
  extractPackStructOfType
    (TypeNode.typeReferenceNode typeName (RefTail.mk typeArgs res)) p tr

/-! ## Decoding instrumentation

Opcode-directed decoding of an op buffer (the arity map `OPs` of the
source, as also walked by `debugPackStruct`), used to read individual
instructions out of a finished buffer. -/

/-- `OPs[op].params` — the closed opcode→arity map. -/
def opParams (op : Int) : Nat :=
  if op = ReflectionOp.literal ∨ op = ReflectionOp.pointer ∨ op = ReflectionOp.arg ∨
      op = ReflectionOp.classReference ∨ op = ReflectionOp.propertySignature ∨
      op = ReflectionOp.property ∨ op = ReflectionOp.jump ∨ op = ReflectionOp.enum ∨
      op = ReflectionOp.template ∨ op = ReflectionOp.call ∨ op = ReflectionOp.inline ∨
      op = ReflectionOp.defaultValue ∨ op = ReflectionOp.parameter ∨
      op = ReflectionOp.method ∨ op = ReflectionOp.description ∨
      op = ReflectionOp.numberBrand then 1
  else if op = ReflectionOp.mappedType ∨ op = ReflectionOp.inlineCall ∨
      op = ReflectionOp.loads ∨ op = ReflectionOp.infer then 2
  else 0

/-- Opcode-directed decode: each instruction consumes its operand
bytes.  (The auxiliary fuel is the buffer length, which bounds the
number of instructions.) -/
def decodeInstrsAux : Nat → List Int → List (Int × List Int)
  | 0, _ => []
  | _, [] => []
  | fuel + 1, op :: rest =>
    (op, rest.take (opParams op)) :: decodeInstrsAux fuel (rest.drop (opParams op))

def decodeInstrs (buf : List Int) : List (Int × List Int) :=
  decodeInstrsAux buf.length buf

/-- The operand pairs of all `infer` instructions in a buffer. -/
def inferOperands (buf : List Int) : List (List Int) :=
  (decodeInstrs buf).filterMap
    (fun q => if q.1 = ReflectionOp.infer then some q.2 else none)

/-- Number of frames chained below the current one. -/
def frameDepth : Frame → Nat
  | Frame.base _ _ _ => 0
  | Frame.child _ _ _ p => frameDepth p + 1

/-- The buffer currently receiving ops (top active coroutine if any,
else the main buffer). -/
def CPState.activeBuffer (s : CPState) : List Int :=
  match s.activeCoRoutines.getLast? with
  | some b => b
  | none => s.ops

/-! ### C4 — the intersection case leaves its frame open -/

/-- C4 — the walker's `IntersectionType` case, entered with a
non-empty program, executes `pushFrame` (emitting the `frame` op at
index 1) but never executes a matching `popFrame`: the program leaves
the case one frame deeper than it entered (the `UnionType` case, by
contrast, pops).  This contradicts the claimed balance of every
`pushFrame` with a `popFrame` before finalisation. -/
theorem intersection_frame_not_popped :
    extractPackStructOfType
        (TypeNode.intersectionNode
          (TypeNodeList.ofList [TypeNode.stringKeyword, TypeNode.numberKeyword]))
        (freshProgram.pushOp [ReflectionOp.string]) freshTrState =
      Except.ok
        (CPState.mk
          [ReflectionOp.string, ReflectionOp.frame, ReflectionOp.string,
            ReflectionOp.number, ReflectionOp.intersection]
          [] 0 0 (Frame.child [] 2 false (Frame.base [] 0 false)) [] [],
          freshTrState) ∧
    frameDepth (Frame.child [] 2 false (Frame.base [] 0 false)) =
      frameDepth (freshProgram.pushOp [ReflectionOp.string]).frame + 1 :=
  ⟨rfl, rfl⟩

/-! ### C7 — unresolved references silently emit `any` -/

/-- Dispatch of the walker's `TypeReference` case. -/
theorem extract_typeRef_dispatch (typeName : EntityNameM) (tail : RefTail)
    (p : CPState) (tr : TrState) :
    extractPackStructOfType (TypeNode.typeReferenceNode typeName tail) p tr =
      extractTypeRefCase (classifyReference typeName p) typeName tail p tr := rfl

/-- Under the C7 hypotheses the reference prelude reaches the
resolution oracle. -/
theorem classifyReference_fallthrough (typeName : EntityNameM) (p : CPState)
    (hplain : ∀ t, typeName = EntityNameM.ident t →
      knownClasses t = none ∧ t ≠ "Promise" ∧ t ≠ "integer" ∧ t ≠ "int8" ∧
        t ≠ "int16" ∧ p.findVariable t = none) :
    classifyReference typeName p = RefPrelude.fallthrough := by
  cases typeName with
  | ident t =>
    obtain ⟨hk, hpr, hi, h8, h16, hv⟩ := hplain t rfl
    unfold classifyReference
    rw [show joinQualifiedName (EntityNameM.ident t) = t from rfl, hk]
    rw [if_neg (by simp [hpr]), if_neg (by simp [hi]), if_neg (by simp [h8]),
      if_neg (by simp [h16])]
    show (match p.findVariable t with
      | some (frameOffset, stackIndex) => RefPrelude.loadsHit frameOffset stackIndex
      | none => RefPrelude.fallthrough) = RefPrelude.fallthrough
    rw [hv]
  | qualified l r =>
    unfold classifyReference
    cases hkc : knownClasses (joinQualifiedName (EntityNameM.qualified l r)) with
    | none =>
      rw [if_neg (by intro hc; cases hc), if_neg (by intro hc; cases hc),
        if_neg (by intro hc; cases hc), if_neg (by intro hc; cases hc)]
    | some op =>
      rw [if_neg (by intro hc; cases hc), if_neg (by intro hc; cases hc),
        if_neg (by intro hc; cases hc), if_neg (by intro hc; cases hc)]

/-- The resolution dispatch at `fallthrough` with an unresolved
declaration pushes `any`. -/
theorem extractTypeRefCase_fallthrough_unresolved (typeName : EntityNameM)
    (typeArgs : TypeArgsM) (p : CPState) (tr : TrState) :
    extractTypeRefCase RefPrelude.fallthrough typeName
        (RefTail.mk typeArgs Resolution.unresolved) p tr =
      Except.ok (p.pushOp [ReflectionOp.any], tr) := rfl

/-- C7 — for a type reference that is not a known class, not
`Promise`, not a numeric brand (`integer`/`int8`/`int16`), and not a
bound variable, an unresolved declaration makes
`extractPackStructOfTypeReference` push exactly the single op `any`,
leave the stack, queues and every other part of the state untouched,
and raise no error. -/
theorem unresolved_reference_emits_any (typeName : EntityNameM)
    (typeArgs : TypeArgsM) (p : CPState) (tr : TrState)
    (hplain : ∀ t, typeName = EntityNameM.ident t →
      knownClasses t = none ∧ t ≠ "Promise" ∧ t ≠ "integer" ∧ t ≠ "int8" ∧
        t ≠ "int16" ∧ p.findVariable t = none) :
    extractPackStructOfTypeReference typeName typeArgs Resolution.unresolved p tr =
      Except.ok (p.pushOp [ReflectionOp.any], tr) := by
  show extractPackStructOfType
      (TypeNode.typeReferenceNode typeName (RefTail.mk typeArgs Resolution.unresolved)) p tr =
    Except.ok (p.pushOp [ReflectionOp.any], tr)
  rw [extract_typeRef_dispatch, classifyReference_fallthrough typeName p hplain,
    extractTypeRefCase_fallthrough_unresolved]

/-- Witness for C7 at a concrete unresolved global. -/
theorem unresolved_reference_emits_any_witness :
    extractPackStructOfTypeReference (EntityNameM.ident "SomeGlobal")
      TypeArgsM.noArgs Resolution.unresolved freshProgram freshTrState =
      Except.ok (freshProgram.pushOp [ReflectionOp.any], freshTrState) :=
  unresolved_reference_emits_any (EntityNameM.ident "SomeGlobal") TypeArgsM.noArgs
    freshProgram freshTrState
    (by
      intro t ht
      injection ht with h
      subst h
      exact ⟨rfl, by decide, by decide, by decide, by decide, rfl⟩)

/-! ### C9 — `infer` operand resolution -/

/-- The stored index of `name` in the frame `k` hops down the chain
(`none` when the chain is shorter or the frame does not bind it). -/
def bindsAt (f : Frame) (k : Nat) (name : String) : Option Nat :=
  match frameAt f k with
  | none => none
  | some fr =>
    match fr.varList.find? (fun v => v.name == name) with
    | none => none
    | some v => some v.index

theorem bindsAt_child (vars : List Variable) (oi : Nat) (c : Bool) (prev : Frame)
    (k : Nat) (name : String) :
    bindsAt (Frame.child vars oi c prev) (k + 1) name = bindsAt prev k name := rfl

theorem frameAt_zero (f : Frame) : frameAt f 0 = some f := by
  cases f <;> rfl

theorem updateFrameAt_zero (f : Frame) (g : Frame → Frame) :
    updateFrameAt f 0 g = g f := by
  cases f <;> rfl

/-- `findVariable` returns the stored index of the nearest binding,
with the frame offset equal to the chain distance. -/
theorem findVariableFrom_of_binds (d : Nat) :
    ∀ (f : Frame) (name : String) (off i : Nat),
    (∀ k, k < d → bindsAt f k name = none) →
    bindsAt f d name = some i →
    findVariableFrom f name off = some (off + d, i) := by
  induction d with
  | zero =>
    intro f name off i hnone hbind
    unfold bindsAt at hbind
    rw [frameAt_zero] at hbind
    cases f with
    | base vars oi c =>
      simp only [Frame.varList] at hbind
      unfold findVariableFrom
      cases hf : vars.find? (fun v => v.name == name) with
      | none => rw [hf] at hbind; cases hbind
      | some v =>
        rw [hf] at hbind
        simp only [Option.some.injEq] at hbind
        simp [hf, hbind]
    | child vars oi c prev =>
      simp only [Frame.varList] at hbind
      unfold findVariableFrom
      cases hf : vars.find? (fun v => v.name == name) with
      | none => rw [hf] at hbind; cases hbind
      | some v =>
        rw [hf] at hbind
        simp only [Option.some.injEq] at hbind
        simp [hf, hbind]
  | succ d ih =>
    intro f name off i hnone hbind
    cases f with
    | base vars oi c =>
      unfold bindsAt at hbind
      rw [show frameAt (Frame.base vars oi c) (d + 1) = none from rfl] at hbind
      cases hbind
    | child vars oi c prev =>
      have h0 := hnone 0 (Nat.succ_pos d)
      unfold bindsAt at h0
      rw [show frameAt (Frame.child vars oi c prev) 0 =
        some (Frame.child vars oi c prev) from rfl] at h0
      simp only [Frame.varList] at h0
      have hf : vars.find? (fun v => v.name == name) = none := by
        cases hf : vars.find? (fun v => v.name == name) with
        | none => rfl
        | some v => rw [hf] at h0; cases h0
      unfold findVariableFrom
      rw [hf]
      rw [bindsAt_child] at hbind
      have harith : (off + 1) + d = off + (d + 1) := by omega
      rw [← harith]
      exact ih prev name (off + 1) i
        (fun k hk => by
          have := hnone (k + 1) (by omega)
          rw [bindsAt_child] at this
          exact this)
        hbind

/-- `findConditionalFrame`'s depth really reaches the returned frame. -/
theorem findConditionalFrameD_frameAt :
    ∀ (f : Frame) (d : Nat) (F : Frame),
    findConditionalFrameD f = some (d, F) → frameAt f d = some F := by
  intro f
  induction f with
  | base vars oi c =>
    intro d F h
    unfold findConditionalFrameD at h
    by_cases hc : c = true
    · subst hc
      rw [if_pos rfl] at h
      injection h with h1
      have hd : 0 = d := congrArg Prod.fst h1
      have hF : Frame.base vars oi true = F := congrArg Prod.snd h1
      rw [← hd, ← hF]
      rfl
    · rw [if_neg hc] at h
      cases h
  | child vars oi c prev ih =>
    intro d F h
    unfold findConditionalFrameD at h
    by_cases hc : c = true
    · subst hc
      rw [if_pos rfl] at h
      injection h with h1
      have hd : 0 = d := congrArg Prod.fst h1
      have hF : Frame.child vars oi true prev = F := congrArg Prod.snd h1
      rw [← hd, ← hF]
      rfl
    · rw [if_neg hc] at h
      cases hprev : findConditionalFrameD prev with
      | none => rw [hprev] at h; cases h
      | some q =>
        obtain ⟨q1, q2⟩ := q
        rw [hprev] at h
        rw [show (Option.map (fun q => (q.1 + 1, q.2)) (some (q1, q2)) :
          Option (Nat × Frame)) = some (q1 + 1, q2) from rfl] at h
        injection h with h1
        have hd : q1 + 1 = d := congrArg Prod.fst h1
        have hF : q2 = F := congrArg Prod.snd h1
        rw [← hd]
        rw [show frameAt (Frame.child vars oi c prev) (q1 + 1) = frameAt prev q1 from rfl]
        rw [← hF]
        exact ih q1 q2 hprev

/-- A wholly unsuccessful lookup means no frame in the chain binds the
name. -/
theorem findVariableFrom_none_bindsAt :
    ∀ (f : Frame) (name : String) (off : Nat),
    findVariableFrom f name off = none → ∀ k, bindsAt f k name = none := by
  intro f
  induction f with
  | base vars oi c =>
    intro name off h k
    unfold findVariableFrom at h
    cases hf : vars.find? (fun v => v.name == name) with
    | some v => rw [hf] at h; cases h
    | none =>
      match k with
      | 0 =>
        unfold bindsAt
        rw [show frameAt (Frame.base vars oi c) 0 = some (Frame.base vars oi c) from rfl]
        simp [Frame.varList, hf]
      | k + 1 =>
        unfold bindsAt
        rw [show frameAt (Frame.base vars oi c) (k + 1) = none from rfl]
  | child vars oi c prev ih =>
    intro name off h k
    unfold findVariableFrom at h
    cases hf : vars.find? (fun v => v.name == name) with
    | some v => rw [hf] at h; cases h
    | none =>
      rw [hf] at h
      match k with
      | 0 =>
        unfold bindsAt
        rw [show frameAt (Frame.child vars oi c prev) 0 =
          some (Frame.child vars oi c prev) from rfl]
        simp [Frame.varList, hf]
      | k + 1 =>
        rw [bindsAt_child]
        exact ih name (off + 1) h k

/-- Frames nearer the top than the updated one keep their bindings. -/
theorem bindsAt_updateFrameAt_lt :
    ∀ (d k : Nat) (f : Frame) (g : Frame → Frame) (name : String), k < d →
    bindsAt (updateFrameAt f d g) k name = bindsAt f k name := by
  intro d
  induction d with
  | zero => intro k f g name hk; omega
  | succ d ih =>
    intro k f g name hk
    cases f with
    | base vars oi c => rfl
    | child vars oi c prev =>
      match k with
      | 0 => rfl
      | k + 1 =>
        rw [show updateFrameAt (Frame.child vars oi c prev) (d + 1) g =
          Frame.child vars oi c (updateFrameAt prev d g) from rfl]
        rw [bindsAt_child, bindsAt_child]
        exact ih k prev g name (by omega)

theorem Frame.varList_withVariables (f : Frame) (vs : List Variable) :
    (f.withVariables vs).varList = vs := by
  cases f <;> rfl

/-- Appending a binding to the frame at depth `d` (which did not bind
the name) makes the lookup at depth `d` return the new index. -/
theorem bindsAt_updateFrameAt_append :
    ∀ (d : Nat) (f : Frame) (name : String) (v : Variable) (F : Frame),
    frameAt f d = some F →
    F.varList.find? (fun w => w.name == name) = none →
    v.name = name →
    bindsAt (updateFrameAt f d (fun fr => fr.withVariables (fr.varList ++ [v]))) d name =
      some v.index := by
  intro d
  induction d with
  | zero =>
    intro f name v F hF hfind hv
    rw [frameAt_zero] at hF
    injection hF with hF
    subst hF
    unfold bindsAt
    rw [updateFrameAt_zero, frameAt_zero]
    show (match (f.withVariables (f.varList ++ [v])).varList.find?
        (fun w => w.name == name) with
      | none => (none : Option Nat)
      | some w => some w.index) = some v.index
    rw [Frame.varList_withVariables]
    rw [List.find?_append, hfind]
    simp [List.find?, hv]
  | succ d ih =>
    intro f name v F hF hfind hv
    cases f with
    | base vars oi c => rw [show frameAt (Frame.base vars oi c) (d + 1) = none from rfl] at hF; cases hF
    | child vars oi c prev =>
      rw [show frameAt (Frame.child vars oi c prev) (d + 1) = frameAt prev d from rfl] at hF
      rw [show updateFrameAt (Frame.child vars oi c prev) (d + 1)
        (fun fr => fr.withVariables (fr.varList ++ [v])) =
        Frame.child vars oi c (updateFrameAt prev d
          (fun fr => fr.withVariables (fr.varList ++ [v]))) from rfl]
      rw [bindsAt_child]
      exact ih prev name v F hF hfind hv

theorem bindsAt_none_find (f : Frame) (d : Nat) (F : Frame) (name : String)
    (hF : frameAt f d = some F) (hnone : bindsAt f d name = none) :
    F.varList.find? (fun w => w.name == name) = none := by
  cases hfind : F.varList.find? (fun w => w.name == name) with
  | none => rfl
  | some v =>
    exfalso
    have hsome : bindsAt f d name = some v.index := by
      unfold bindsAt
      rw [hF]
      show (match F.varList.find? (fun w => w.name == name) with
        | none => none
        | some v => some v.index) = some v.index
      rw [hfind]
    rw [hnone] at hsome
    cases hsome

@[simp] theorem pushOpAtFrame_frame (s : CPState) (f : Frame) (ops : List Int) :
    (s.pushOpAtFrame f ops).frame = s.frame := by
  unfold CPState.pushOpAtFrame; split <;> rfl

theorem modifyLastBuf_getLast? (g : List Int → List Int) :
    ∀ (l : List (List Int)) (b : List Int), l.getLast? = some b →
    (modifyLastBuf g l).getLast? = some (g b)
  | [], _, hb => by cases hb
  | [a], b, hb => by
    rw [show ([a] : List (List Int)).getLast? = some a from rfl] at hb
    injection hb with hb
    subst hb
    rfl
  | a :: a2 :: rest, b, hb => by
    rw [show (a :: a2 :: rest).getLast? = (a2 :: rest).getLast? from rfl] at hb
    have ih := modifyLastBuf_getLast? g (a2 :: rest) b hb
    show (a :: modifyLastBuf g (a2 :: rest)).getLast? = some (g b)
    cases hmb : modifyLastBuf g (a2 :: rest) with
    | nil => rw [hmb] at ih; cases ih
    | cons m ms =>
      rw [hmb] at ih
      rw [show (a :: m :: ms).getLast? = (m :: ms).getLast? from rfl]
      exact ih

theorem cons_getLast?_some : ∀ (a : List Int) (l : List (List Int)),
    ∃ c, (a :: l).getLast? = some c
  | a, [] => ⟨a, rfl⟩
  | a, b :: l => by
    obtain ⟨c, hc⟩ := cons_getLast?_some b l
    exact ⟨c, by rw [show (a :: b :: l).getLast? = (b :: l).getLast? from rfl]; exact hc⟩

theorem pushOpAtFrame_activeBuffer (s : CPState) (f : Frame) (ops : List Int) :
    (s.pushOpAtFrame f ops).activeBuffer = spliceAt s.activeBuffer f.opIndex ops := by
  obtain ⟨o, st, mo, sp, fr, aco, co⟩ := s
  cases aco with
  | nil => rfl
  | cons b rest =>
    show CPState.activeBuffer
        (⟨o, st, mo, sp, fr,
          modifyLastBuf (fun bb => spliceAt bb f.opIndex ops) (b :: rest), co⟩ : CPState) = _
    obtain ⟨c, hc⟩ := cons_getLast?_some b rest
    have hmod := modifyLastBuf_getLast? (fun bb => spliceAt bb f.opIndex ops) (b :: rest) c hc
    unfold CPState.activeBuffer
    rw [hmod, hc]

/-- Characterisation of `pushVariable` when the target depth is in
range: the `var` op is spliced at the *target frame's recorded
`opIndex`*, the binding is appended to the target frame with the
*current frame's* variable count as its stored index, and the target's
previous length is returned. -/
theorem pushVariable_eq (s : CPState) (name : String) (d : Nat) (F : Frame)
    (hF : frameAt s.frame d = some F) :
    s.pushVariable name d =
      ({ s.pushOpAtFrame F [ReflectionOp.var] with
         frame := updateFrameAt s.frame d
           (fun fr => fr.withVariables
             (fr.varList ++ [(⟨name, s.frame.varList.length⟩ : Variable)])) },
       F.varList.length) := by
  unfold CPState.pushVariable
  rw [hF]
  show ({ s.pushOpAtFrame F [ReflectionOp.var] with
      frame := updateFrameAt (s.pushOpAtFrame F [ReflectionOp.var]).frame d
        (fun fr => fr.withVariables
          (fr.varList ++ [(⟨name, s.frame.varList.length⟩ : Variable)])) },
    F.varList.length) = _
  rw [pushOpAtFrame_frame]

theorem inferNodeEmit_cond (p : CPState) (tr : TrState) (X : String) (dc : Nat) (F : Frame)
    (hcond : p.findConditionalFrame = some (dc, F)) :
    inferNodeEmit X p tr = inferNodeEmitInFrame X dc p tr := by
  unfold inferNodeEmit
  rw [hcond]

theorem inferNodeEmitInFrame_found (X : String) (dc : Nat) (p : CPState) (tr : TrState)
    (d i : Nat) (h : p.findVariable X = some (d, i)) :
    inferNodeEmitInFrame X dc p tr =
      Except.ok (p.pushOp [ReflectionOp.infer, (d : Int), (i : Int)], tr) := by
  unfold inferNodeEmitInFrame
  rw [h]

theorem inferNodeEmitInFrame_notfound (X : String) (dc : Nat) (p : CPState) (tr : TrState)
    (h : p.findVariable X = none) :
    inferNodeEmitInFrame X dc p tr = inferNodeEmitRetry X (p.pushVariable X dc).1 tr := by
  unfold inferNodeEmitInFrame
  rw [h]

theorem inferNodeEmitRetry_found (X : String) (p : CPState) (tr : TrState)
    (d i : Nat) (h : p.findVariable X = some (d, i)) :
    inferNodeEmitRetry X p tr =
      Except.ok (p.pushOp [ReflectionOp.infer, (d : Int), (i : Int)], tr) := by
  unfold inferNodeEmitRetry
  rw [h]

/-- C9 — counterexample.  One conditional-type body containing two
occurrences of `infer X` at different nesting depths (one directly in
a union member, one inside an intersection inside the union): the two
emitted `infer` instructions carry *different* operand pairs,
`(1, 0)` and `(2, 0)` — the frame offset depends on the occurrence's
position, contradicting the claim that the pair is the same
regardless of position.  (The stack index 0 is shared.) -/
theorem infer_operands_differ_counterexample :
    extractPackStructOfType
        (TypeNode.conditionalNode TypeNode.stringKeyword
          (TypeNode.unionNode (TypeNodeList.ofList [TypeNode.inferNode "X",
            TypeNode.intersectionNode (TypeNodeList.ofList
              [TypeNode.inferNode "X", TypeNode.stringKeyword])]))
          TypeNode.anyKeyword TypeNode.neverKeyword)
        freshProgram freshTrState =
      Except.ok (CPState.mk
        [ReflectionOp.frame, ReflectionOp.var, ReflectionOp.string,
          ReflectionOp.frame, ReflectionOp.infer, 1, 0,
          ReflectionOp.frame, ReflectionOp.infer, 2, 0,
          ReflectionOp.string, ReflectionOp.intersection, ReflectionOp.union,
          ReflectionOp.extendsOp, ReflectionOp.any, ReflectionOp.never,
          ReflectionOp.condition]
        [] 0 0 (Frame.child [⟨"X", 0⟩] 1 true (Frame.base [] 0 false)) [] [],
        freshTrState) ∧
    inferOperands
        [ReflectionOp.frame, ReflectionOp.var, ReflectionOp.string,
          ReflectionOp.frame, ReflectionOp.infer, 1, 0,
          ReflectionOp.frame, ReflectionOp.infer, 2, 0,
          ReflectionOp.string, ReflectionOp.intersection, ReflectionOp.union,
          ReflectionOp.extendsOp, ReflectionOp.any, ReflectionOp.never,
          ReflectionOp.condition] = [[1, 0], [2, 0]] ∧
    ([1, 0] : List Int) ≠ [2, 0] :=
  ⟨rfl, by decide, by decide⟩

/-- C9 — amended.  Every `infer X` occurrence emits `infer` with the
*stack index* stored for `X`'s binding — hence the same stack index
for all occurrences resolving to the same binding — while the *frame
offset* operand is the occurrence's chain distance to the binding
frame (it varies with nesting depth; the original claim that the whole
pair is position-independent fails, see the counterexample).  On the
first occurrence (no binding yet) the binding is appended to the
conditional frame found by `findConditionalFrame`, the stored stack
index is the current frame's variable count, and the `var` op is
spliced into the active buffer exactly at the `opIndex` recorded when
that conditional frame was opened. -/
theorem infer_emission_amended (p : CPState) (tr : TrState) (X : String) :
    (∀ d i dc F, p.findConditionalFrame = some (dc, F) →
      (∀ k, k < d → bindsAt p.frame k X = none) →
      bindsAt p.frame d X = some i →
      extractPackStructOfType (TypeNode.inferNode X) p tr =
        Except.ok (p.pushOp [ReflectionOp.infer, (d : Int), (i : Int)], tr)) ∧
    (∀ dc F, p.findConditionalFrame = some (dc, F) →
      p.findVariable X = none →
      extractPackStructOfType (TypeNode.inferNode X) p tr =
        Except.ok (((p.pushVariable X dc).1).pushOp
          [ReflectionOp.infer, (dc : Int), (p.frame.varList.length : Int)], tr) ∧
      ((p.pushVariable X dc).1).activeBuffer =
        spliceAt p.activeBuffer F.opIndex [ReflectionOp.var]) := by
  constructor
  · intro d i dc F hcond hnone hbind
    have hfv : p.findVariable X = some (d, i) := by
      have h := findVariableFrom_of_binds d p.frame X 0 i hnone hbind
      rw [Nat.zero_add] at h
      exact h
    show inferNodeEmit X p tr = _
    rw [inferNodeEmit_cond p tr X dc F hcond, inferNodeEmitInFrame_found X dc p tr d i hfv]
  · intro dc F hcond hfvnone
    have hframeAt : frameAt p.frame dc = some F :=
      findConditionalFrameD_frameAt p.frame dc F hcond
    have hall : ∀ k, bindsAt p.frame k X = none :=
      findVariableFrom_none_bindsAt p.frame X 0 hfvnone
    have hFfind : F.varList.find? (fun w => w.name == X) = none :=
      bindsAt_none_find p.frame dc F X hframeAt (hall dc)
    have hpveq := pushVariable_eq p X dc F hframeAt
    have h1 : (p.pushVariable X dc).1 =
        ({ p.pushOpAtFrame F [ReflectionOp.var] with
           frame := updateFrameAt p.frame dc
             (fun fr => fr.withVariables
               (fr.varList ++ [(⟨X, p.frame.varList.length⟩ : Variable)])) } : CPState) := by
      rw [hpveq]
    have hpost : ((p.pushVariable X dc).1).findVariable X
        = some (dc, p.frame.varList.length) := by
      rw [h1]
      show findVariableFrom (updateFrameAt p.frame dc
        (fun fr => fr.withVariables
          (fr.varList ++ [(⟨X, p.frame.varList.length⟩ : Variable)]))) X 0 = _
      have happend := bindsAt_updateFrameAt_append dc p.frame X
        ⟨X, p.frame.varList.length⟩ F hframeAt hFfind rfl
      have h := findVariableFrom_of_binds dc
        (updateFrameAt p.frame dc
          (fun fr => fr.withVariables
            (fr.varList ++ [(⟨X, p.frame.varList.length⟩ : Variable)])))
        X 0 p.frame.varList.length
        (fun k hk => by
          rw [bindsAt_updateFrameAt_lt dc k p.frame _ X hk]
          exact hall k)
        happend
      rw [Nat.zero_add] at h
      exact h
    constructor
    · show inferNodeEmit X p tr = _
      rw [inferNodeEmit_cond p tr X dc F hcond,
        inferNodeEmitInFrame_notfound X dc p tr hfvnone,
        inferNodeEmitRetry_found X ((p.pushVariable X dc).1) tr dc p.frame.varList.length hpost]
    · rw [h1]
      show CPState.activeBuffer (p.pushOpAtFrame F [ReflectionOp.var]) = _
      exact pushOpAtFrame_activeBuffer p F [ReflectionOp.var]

/-- Witness for the amended C9: a program with one open conditional
frame; the bound clause at the binding `(depth 0, index 0)` and the
unbound clause with its splice at the recorded `opIndex` 1. -/
theorem infer_emission_amended_witness :
    (extractPackStructOfType (TypeNode.inferNode "X")
        (CPState.mk [ReflectionOp.frame, ReflectionOp.var] [] 0 0
          (Frame.child [⟨"X", 0⟩] 1 true (Frame.base [] 0 false)) [] []) freshTrState =
      Except.ok ((CPState.mk [ReflectionOp.frame, ReflectionOp.var] [] 0 0
          (Frame.child [⟨"X", 0⟩] 1 true (Frame.base [] 0 false)) [] []).pushOp
        [ReflectionOp.infer, (0 : Int), (0 : Int)], freshTrState)) ∧
    (extractPackStructOfType (TypeNode.inferNode "X")
        freshProgram.pushConditionalFrame freshTrState =
      Except.ok (((freshProgram.pushConditionalFrame.pushVariable "X" 0).1).pushOp
        [ReflectionOp.infer, (0 : Int), (0 : Int)], freshTrState) ∧
      ((freshProgram.pushConditionalFrame.pushVariable "X" 0).1).activeBuffer =
        spliceAt freshProgram.pushConditionalFrame.activeBuffer
          (Frame.child [] 1 true (Frame.base [] 0 false)).opIndex [ReflectionOp.var]) :=
  ⟨(infer_emission_amended
      (CPState.mk [ReflectionOp.frame, ReflectionOp.var] [] 0 0
        (Frame.child [⟨"X", 0⟩] 1 true (Frame.base [] 0 false)) [] []) freshTrState "X").1
      0 0 0 (Frame.child [⟨"X", 0⟩] 1 true (Frame.base [] 0 false))
      (by decide) (by decide) (by decide),
    (infer_emission_amended freshProgram.pushConditionalFrame freshTrState "X").2
      0 (Frame.child [] 1 true (Frame.base [] 0 false)) (by decide) (by decide)⟩

/-! ## The hoisting loop of `transformSourceFile` (C2, C3)

`transformSourceFile` externalises type aliases with a visitor
(`compileDeclarations`, source lines 656–693) that it re-runs in a
`while (this.compileDeclarations.size > 0)` loop (lines 695–697).  For
each alias/interface statement that is a key of the compile queue, the
visitor deletes the key, compiles the declaration's type in a fresh
`CompilerProgram` (binding its type parameters first), and appends a
sibling `const __Ω<Name> = <packed program>;` statement.  We model a
source file as its list of alias/interface declarations in statement
order, and record of each visitor pass the list of hoisted binding
names it emits (the initialiser is `packOpsAndStack(buildPackStruct())`
of the compiled program, which the name determines given the file).
The `while` loop itself is modelled with explicit fuel: `none` means
the loop is still running after `fuel` passes.  The
`if (this.embedDeclarations.size) { }` block at lines 699–701 is empty
in the source, so the embed queue is never drained; the model
accordingly has no pass over `embedDeclarations` at all. -/

/-- One type-alias or interface declaration statement of the file:
its identity (the key used by the `compileDeclarations` map), its type
parameters, and the node that gets compiled (`node.type` for an alias,
the whole node for an interface). -/
structure FileDecl where
  declId : Nat
  typeParams : List String
  body : TypeNode

/-- One pass of `visitNode(this.sourceFile, compileDeclarations)`:
statements in order; a queued declaration is removed from the queue
*before* its type is compiled (so references re-enqueue it), and its
hoisted binding name is emitted. -/
def runCompilePass : List FileDecl → TrState → Except String (TrState × List String)
  | [], tr => Except.ok (tr, [])
  | fd :: rest, tr =>
    match mapGet tr.compileDeclarations fd.declId with
    | none => runCompilePass rest tr
    | some name =>
      let tr1 := { tr with compileDeclarations := mapDelete tr.compileDeclarations fd.declId }
      let p0 := fd.typeParams.foldl CPState.pushTemplateParameter freshProgram
      match extractPackStructOfType fd.body p0 tr1 with
      | Except.error e => Except.error e
      | Except.ok (_, tr2) =>
        match runCompilePass rest tr2 with
        | Except.error e => Except.error e
        | Except.ok (tr3, names) =>
          Except.ok (tr3, getDeclarationVariableName name :: names)

/-- `while (this.compileDeclarations.size > 0) { visitNode(...) }`,
with fuel: `some (ok (tr, names))` when the loop exits having emitted
`names` (in order), `none` when it is still running after `fuel`
passes. -/
def hoistLoop (file : List FileDecl) : Nat → TrState → List String →
    Option (Except String (TrState × List String))
  | 0, tr, acc =>
    if tr.compileDeclarations.isEmpty then some (Except.ok (tr, acc)) else none
  | fuel + 1, tr, acc =>
    if tr.compileDeclarations.isEmpty then some (Except.ok (tr, acc))
    else
      match runCompilePass file tr with
      | Except.error e => some (Except.error e)
      | Except.ok (tr2, names) => hoistLoop file fuel tr2 (acc ++ names)

/-- A file with two aliases: `A` with a plain body and `B` whose body
references `A` (resolved locally, no type arguments). -/
def fileAB : List FileDecl :=
  [FileDecl.mk 0 [] TypeNode.stringKeyword,
   FileDecl.mk 1 [] (TypeNode.typeReferenceNode (EntityNameM.ident "A")
     (RefTail.mk TypeArgsM.noArgs (Resolution.aliasOrInterfaceDecl 0 false)))]

/-- A file whose single alias `A` references itself (a legal TS type
such as `type A = A[]` reduced to its reference; the resolver maps the
reference back to declaration 0 of the same file). -/
def fileSelf : List FileDecl :=
  [FileDecl.mk 0 [] (TypeNode.typeReferenceNode (EntityNameM.ident "A")
    (RefTail.mk TypeArgsM.noArgs (Resolution.aliasOrInterfaceDecl 0 false)))]

/-- C2 — counterexample to once-per-file emission.  With both `A` and
`B` initially queued and `B`'s body referencing `A`, the first visitor
pass compiles `A`, then compiles `B` — which re-enqueues the
already-compiled `A` — so the second pass compiles `A` *again*: the
loop terminates but the output carries the hoisted binding `__ΩA`
twice.  And when a referenced alias arrives through an import binding
it is put on `embedDeclarations`, which no pass ever drains (the
`if (this.embedDeclarations.size)` block is empty): the loop exits at
once emitting nothing, the queue entry still pending — so an imported
referenced alias never receives a hoisted binding at all. -/
theorem hoisted_binding_duplicated :
    hoistLoop fileAB 3
        ⟨[(0, EntityNameM.ident "A"), (1, EntityNameM.ident "B")], [], 0⟩ [] =
      some (Except.ok (⟨[], [], 1⟩, ["__ΩA", "__ΩB", "__ΩA"])) ∧
    (["__ΩA", "__ΩB", "__ΩA"].count "__ΩA" ≠ 1) ∧
    (∀ fuel n embeds acc, hoistLoop fileAB fuel ⟨[], embeds, n⟩ acc =
      some (Except.ok (⟨[], embeds, n⟩, acc))) :=
  ⟨rfl, by decide, fun fuel n embeds acc => by cases fuel <;> rfl⟩

/-- C3 — the hoist loop does not terminate on a self-referential
alias.  Compiling `A` first deletes it from the queue, then walks its
body, whose reference to `A` re-enqueues it; every pass therefore
leaves the queue exactly `{A}` again (emitting one more `__ΩA` and
consuming one expression id), and the `while` loop never exits: for
every fuel the model still reports the loop running. -/
theorem hoist_loop_diverges_on_self_reference :
    ∀ fuel n acc, hoistLoop fileSelf fuel ⟨[(0, EntityNameM.ident "A")], [], n⟩ acc = none := by
  intro fuel
  induction fuel with
  | zero => intro n acc; rfl
  | succ f ih =>
    intro n acc
    have hstep : hoistLoop fileSelf (f + 1) ⟨[(0, EntityNameM.ident "A")], [], n⟩ acc =
        hoistLoop fileSelf f ⟨[(0, EntityNameM.ident "A")], [], n + 1⟩ (acc ++ ["__ΩA"]) := rfl
    rw [hstep]
    exact ih (n + 1) (acc ++ ["__ΩA"])

/-! ## Carrier decoration and reflection modes (C8)

The first visitor of `transformSourceFile` (source lines 583–653)
rewrites each carrier bottom-up: `decorateClass` appends a static
`__type` member unless `findReflectionConfig(node).mode === 'never'`;
`decorateFunctionExpression` / `decorateArrow` wrap the expression in
`Object.assign(expr, { __type })` and `decorateFunctionDeclaration`
appends a `name.__type = …` statement, all three unless
`getTypeOfType` returned `undefined` — which for a carrier means its
mode resolved to `'never'` (the walker always emits at least one op
for a carrier, so the empty-ops guard of `packOpsAndStack` cannot
fire).  `findReflectionConfig` (lines 1457–1502) walks the parent
chain from the node: the nearest `@reflection` JSDoc tag wins, and
only when no ancestor carries one does the ambient default (the
transformer's `reflectionMode` / tsconfig chain) apply.  We model the
statement/expression tree with carriers tagged by their optional own
`@reflection` tag and thread the inherited mode downward — which is
exactly the nearest-enclosing-tag-else-ambient rule — and mark every
emitted `__type` (static member, `Object.assign` wrapper, or trailing
assignment) uniformly with a `typeAttached` wrapper node. -/

mutual
inductive RNode where
| classNode (tag : Option RMode) (members : RNodeList)
| funcExprNode (tag : Option RMode) (body : RNodeList)
| funcDeclNode (tag : Option RMode) (body : RNodeList)
| arrowNode (tag : Option RMode) (body : RNodeList)
| plainNode (children : RNodeList)
| typeAttached (inner : RNode)
inductive RNodeList where
| nil
| cons (head : RNode) (tail : RNodeList)
end

/-- `findReflectionConfig`'s resolution at one node, given the mode
inherited from the parent chain: the node's own tag wins, else the
inherited one applies. -/
def effMode : Option RMode → RMode → RMode
  | some m, _ => m
  | none, amb => amb

mutual
def visitR (amb : RMode) : RNode → RNode
| RNode.classNode tag members =>
  let members := visitRList (effMode tag amb) members
  if effMode tag amb = RMode.never then RNode.classNode tag members
  else RNode.typeAttached (RNode.classNode tag members)
| RNode.funcExprNode tag body =>
  let body := visitRList (effMode tag amb) body
  if effMode tag amb = RMode.never then RNode.funcExprNode tag body
  else RNode.typeAttached (RNode.funcExprNode tag body)
| RNode.funcDeclNode tag body =>
  let body := visitRList (effMode tag amb) body
  if effMode tag amb = RMode.never then RNode.funcDeclNode tag body
  else RNode.typeAttached (RNode.funcDeclNode tag body)
| RNode.arrowNode tag body =>
  let body := visitRList (effMode tag amb) body
  if effMode tag amb = RMode.never then RNode.arrowNode tag body
  else RNode.typeAttached (RNode.arrowNode tag body)
| RNode.plainNode children => RNode.plainNode (visitRList amb children)
| RNode.typeAttached inner => RNode.typeAttached (visitR amb inner)
def visitRList (amb : RMode) : RNodeList → RNodeList
| RNodeList.nil => RNodeList.nil
| RNodeList.cons n rest => RNodeList.cons (visitR amb n) (visitRList amb rest)
end

/-- `transformSourceFile` head (lines 576–581): resolve the file's own
mode first and return the file unchanged when it is `'never'`,
otherwise run the decorating visitor over the statements. -/
def transformFileR (fileTag : Option RMode) (amb : RMode) (roots : RNodeList) : RNodeList :=
  if effMode fileTag amb = RMode.never then roots
  else visitRList (effMode fileTag amb) roots

mutual
def countTypeAttached : RNode → Nat
| RNode.classNode _ members => countTypeAttachedList members
| RNode.funcExprNode _ body => countTypeAttachedList body
| RNode.funcDeclNode _ body => countTypeAttachedList body
| RNode.arrowNode _ body => countTypeAttachedList body
| RNode.plainNode children => countTypeAttachedList children
| RNode.typeAttached inner => countTypeAttached inner + 1
def countTypeAttachedList : RNodeList → Nat
| RNodeList.nil => 0
| RNodeList.cons n rest => countTypeAttached n + countTypeAttachedList rest
end

mutual
def untaggedR : RNode → Bool
| RNode.classNode tag members => tag.isNone && untaggedRList members
| RNode.funcExprNode tag body => tag.isNone && untaggedRList body
| RNode.funcDeclNode tag body => tag.isNone && untaggedRList body
| RNode.arrowNode tag body => tag.isNone && untaggedRList body
| RNode.plainNode children => untaggedRList children
| RNode.typeAttached inner => untaggedR inner
def untaggedRList : RNodeList → Bool
| RNodeList.nil => true
| RNodeList.cons n rest => untaggedR n && untaggedRList rest
end

mutual
theorem visitR_never_untagged : ∀ t : RNode, untaggedR t = true → visitR RMode.never t = t
| RNode.classNode tag members, h => by
  cases tag with
  | some m => simp [untaggedR] at h
  | none =>
    have hm := visitRList_never_untagged members (by simpa [untaggedR] using h)
    simp [visitR, effMode, hm]
| RNode.funcExprNode tag body, h => by
  cases tag with
  | some m => simp [untaggedR] at h
  | none =>
    have hm := visitRList_never_untagged body (by simpa [untaggedR] using h)
    simp [visitR, effMode, hm]
| RNode.funcDeclNode tag body, h => by
  cases tag with
  | some m => simp [untaggedR] at h
  | none =>
    have hm := visitRList_never_untagged body (by simpa [untaggedR] using h)
    simp [visitR, effMode, hm]
| RNode.arrowNode tag body, h => by
  cases tag with
  | some m => simp [untaggedR] at h
  | none =>
    have hm := visitRList_never_untagged body (by simpa [untaggedR] using h)
    simp [visitR, effMode, hm]
| RNode.plainNode children, h => by
  have hm := visitRList_never_untagged children (by simpa [untaggedR] using h)
  simp [visitR, hm]
| RNode.typeAttached inner, h => by
  have hm := visitR_never_untagged inner (by simpa [untaggedR] using h)
  simp [visitR, hm]
theorem visitRList_never_untagged :
    ∀ l : RNodeList, untaggedRList l = true → visitRList RMode.never l = l
| RNodeList.nil, _ => rfl
| RNodeList.cons n rest, h => by
  have hpair : untaggedR n = true ∧ untaggedRList rest = true := by
    simpa [untaggedRList] using h
  have h1 := visitR_never_untagged n hpair.1
  have h2 := visitRList_never_untagged rest hpair.2
  simp [visitRList, h1, h2]
end

/-- A file (mode `default`, no file-level tag) holding one class whose
own `@reflection` tag says `never`, which contains a function
expression whose own tag says `always`. -/
def c8File : RNodeList :=
  RNodeList.cons (RNode.classNode (some RMode.never)
    (RNodeList.cons (RNode.funcExprNode (some RMode.always) RNodeList.nil) RNodeList.nil))
    RNodeList.nil

/-- C8 — counterexample.  The class's mode resolves to `never`, yet
the transformed file attaches a `__type` (an `Object.assign` wrapper)
to the always-tagged function expression *inside that class's
subtree*: each carrier resolves its mode independently by walking up
to the nearest tag, so a descendant's own tag overrides the enclosing
carrier's `never` — the never-mode class is neither returned unchanged
nor free of `__type` emissions in its subtree. -/
theorem never_carrier_subtree_counterexample :
    transformFileR none RMode.defaultMode c8File =
      RNodeList.cons (RNode.classNode (some RMode.never)
        (RNodeList.cons (RNode.typeAttached
          (RNode.funcExprNode (some RMode.always) RNodeList.nil)) RNodeList.nil))
        RNodeList.nil ∧
    countTypeAttachedList c8File = 0 ∧
    countTypeAttachedList (transformFileR none RMode.defaultMode c8File) = 1 :=
  ⟨rfl, rfl, rfl⟩

/-- C8 — amended.  (1) A *source file* whose mode resolves to `never`
is returned identical to the input — `transformSourceFile` returns
before any visitor runs.  (2) A carrier whose mode resolves to `never`
and whose subtree carries *no overriding `@reflection` tag anywhere*
is returned unchanged with no `__type` member, assignment, or wrapper
emitted in its subtree; the original claim's unconditional subtree
statement fails once a descendant carries its own tag (see the
counterexample). -/
theorem never_carrier_amended :
    (∀ (fileTag : Option RMode) (amb : RMode) (roots : RNodeList),
      effMode fileTag amb = RMode.never → transformFileR fileTag amb roots = roots) ∧
    (∀ t : RNode, untaggedR t = true → visitR RMode.never t = t) := by
  constructor
  · intro fileTag amb roots hm
    simp [transformFileR, hm]
  · exact visitR_never_untagged

/-- Witness for the amended C8: a never-tagged file is returned as-is,
and an untagged class holding an untagged function declaration passes
through the `never`-mode visitor unchanged. -/
theorem never_carrier_amended_witness :
    transformFileR (some RMode.never) RMode.defaultMode c8File = c8File ∧
    visitR RMode.never (RNode.classNode none
        (RNodeList.cons (RNode.funcDeclNode none RNodeList.nil) RNodeList.nil)) =
      RNode.classNode none
        (RNodeList.cons (RNode.funcDeclNode none RNodeList.nil) RNodeList.nil) :=
  ⟨never_carrier_amended.1 (some RMode.never) RMode.defaultMode c8File rfl,
   never_carrier_amended.2
     (RNode.classNode none
       (RNodeList.cons (RNode.funcDeclNode none RNodeList.nil) RNodeList.nil))
     (by decide)⟩

end DeepkitReflection
